import Mathlib

/-!
# The Shadow topology registry (`src/topology/shd-internetwork.c`)

A shallow embedding of the `Internetwork` registry of the Shadow simulator,
followed by the properties proved of it.

Conventions of the embedding

* `guint32` / `guint64` values are natural numbers; every C operation that can
  wrap is written with an explicit `% 2 ^ 32` or `% 2 ^ 64`.
* A `GHashTable` is an association list with at most one entry per key
  (`Table`); `g_hash_table_replace` drops the old entry of the key and adds the
  new one, `g_hash_table_lookup` yields `none` where C yields `NULL`.
* A `Network*` is an address (`NetworkPtr`, `0` is `NULL`). The `Network`
  objects themselves live in `Internetwork.heap`, the part of the process heap
  that `network_new` / `network_free` manage.
* Keys and values of the tables are held by value. The C code shares the
  `mapIP` and `mapName` allocations between `networksByIP`, `ipByName` and
  `nameByIp`; `KeyMemory` follows which allocation is the key of which entry
  and which allocations were freed. A property of a lookup or of a call is a
  property of the program only where no freed key is read.
* The two latency getters return `gdouble`: an integer rounded by `toDouble`.
  The other `gdouble` values (packet loss, percentile, the results of the link
  model) are carried uninterpreted.
* `MAGIC_ASSERT` only checks a marker written by `MAGIC_INIT`; it holds for
  every registry made by `internetwork_new` and is left out.
* A failing `g_assert` aborts the process: `Outcome.aborted s` carries the state
  `s` the registry was in when the assertion failed.
-/

namespace Shadow

/-! ## Machine integers -/

/-- Number of values of a `guint32` (also `GQuark`, `guint`, `in_addr_t`). -/
def U32 : Nat := 2 ^ 32

/-- Number of values of a `guint64`. -/
def U64 : Nat := 2 ^ 64

/-- The C expression `a + b` on `guint64` operands. -/
def add64 (a b : Nat) : Nat := (a + b) % U64

/-- The C expression `a - b` on `guint64` operands (`a`, `b` below `2 ^ 64`). -/
def sub64 (a b : Nat) : Nat := (a + (U64 - b % U64)) % U64

/-- The GLib `MAX(a, b)` : `((a) > (b)) ? (a) : (b)`. -/
def MAX (a b : Nat) : Nat := if a > b then a else b

/-- The GLib `MIN(a, b)` : `((a) < (b)) ? (a) : (b)`. -/
def MIN (a b : Nat) : Nat := if a < b then a else b

/-- The value of a `guint64` converted to `gdouble`, with the rounding of
IEEE 754 (to nearest, ties to even). A `gdouble` has 53 significant bits: every
integer up to `2 ^ 53` is kept, a greater one is rounded to a multiple of
`2 ^ e`, `e` being the number of bits it has beyond 53. The result is an
integer again and is held as a natural number. -/
def toDouble (n : Nat) : Nat :=
  if n ≤ 2 ^ 53 then n
  else
    let e := Nat.log2 n - 52
    let q := n / 2 ^ e
    let r := n % 2 ^ e
    let half := 2 ^ (e - 1)
    if r > half ∨ (r = half ∧ q % 2 = 1) then (q + 1) * 2 ^ e else q * 2 ^ e

/-! ## Reserved addresses (`netinet/in.h`) -/

def INADDR_ANY : Nat := 0x00000000
def INADDR_BROADCAST : Nat := 0xffffffff
def INADDR_NONE : Nat := 0xffffffff
def INADDR_LOOPBACK : Nat := 0x7f000001

/-- The libc `htonl`: the identity on a big-endian host, a swap of the four
bytes on a little-endian one. `littleEndian` is the byte order of the host. -/
def htonl (littleEndian : Bool) (x : Nat) : Nat :=
  if littleEndian then
    (x % 256) * 2 ^ 24 + (x / 2 ^ 8 % 256) * 2 ^ 16 + (x / 2 ^ 16 % 256) * 2 ^ 8 + (x / 2 ^ 24 % 256)
  else x

/-- The condition of the `while` of `_internetwork_generateIP`. -/
def isReservedIP (littleEndian : Bool) (c : Nat) : Bool :=
  c == htonl littleEndian INADDR_NONE ||
  c == htonl littleEndian INADDR_ANY ||
  c == htonl littleEndian INADDR_LOOPBACK ||
  c == htonl littleEndian INADDR_BROADCAST

/-! ## Hash tables -/

/-- A `GHashTable` whose keys are compared by value (`g_int_equal`,
`g_str_equal`, `g_direct_equal`). -/
abbrev Table (κ ν : Type) := List (κ × ν)

/-- The GLib `g_hash_table_lookup`; `none` is `NULL`. -/
def g_hash_table_lookup {κ ν : Type} [DecidableEq κ] : Table κ ν → κ → Option ν
  | [], _ => none
  | (k, v) :: t, key => if k = key then some v else g_hash_table_lookup t key

/-- The entries of a table under keys other than `key`. -/
def Table.erase {κ ν : Type} [DecidableEq κ] : Table κ ν → κ → Table κ ν
  | [], _ => []
  | (k, v) :: t, key => if k = key then Table.erase t key else (k, v) :: Table.erase t key

/-- The GLib `g_hash_table_replace`: the entry of `key`, if any, is dropped and
`(key, value)` is stored. -/
def g_hash_table_replace {κ ν : Type} [DecidableEq κ] (t : Table κ ν) (key : κ) (value : ν) :
    Table κ ν :=
  (key, value) :: Table.erase t key

/-- The GLib `g_hash_table_get_values`. -/
def g_hash_table_get_values {κ ν : Type} (t : Table κ ν) : List ν :=
  t.map Prod.snd

/-! ## Objects of the topology -/

/-- A `GQuark`, a `guint32`. -/
abbrev GQuark := Nat

/-- A `Network*`: the address of a `Network` object, `0` for `NULL`. -/
abbrev NetworkPtr := Nat

/-- The null `Network*`. -/
def NULL : NetworkPtr := 0

/-! ## Quarks -/

/-- The table of interned strings that GLib keeps for the process: the strings
in the order in which they were interned. The first has quark 1, the next
quark 2, and so on; 0 is the quark of no string. -/
abbrev QuarkTable := List String

/-- The GLib `g_quark_try_string`: the quark of a string that was interned, `0`
for any other string. -/
def g_quark_try_string (quarks : QuarkTable) (string : String) : GQuark :=
  if string ∈ quarks then quarks.indexOf string + 1 else 0

/-- The GLib `g_quark_from_string`: the quark of the string and the table after
the call; a string that was not interned before is interned now. -/
def g_quark_from_string (quarks : QuarkTable) (string : String) : GQuark × QuarkTable :=
  if string ∈ quarks then (quarks.indexOf string + 1, quarks)
  else (quarks.length + 1, quarks ++ [string])

/-- The table after the strings of a list were interned one after the other. -/
def internAll (quarks : QuarkTable) (strings : List String) : QuarkTable :=
  strings.foldl (fun table string => (g_quark_from_string table string).2) quarks

/-- Modelled from the spec: the `Link` object of `shd-link.c`, which is not
part of the sources at hand. "Link: immutable tuple {source_network_id,
dest_network_id, latency, jitter, packet_loss}". The `gdouble` packet loss is
carried uninterpreted. -/
structure Link where
  sourceNetwork : NetworkPtr
  destinationNetwork : NetworkPtr
  latency : Nat
  jitter : Nat
  packetloss : Nat
  deriving DecidableEq, Repr

/-- Modelled from the spec: the `Network` object of `shd-network.c`, which is
not part of the sources at hand. "Network: {id, bandwidth_down, bandwidth_up,
outgoing_links, incoming_links}". -/
structure Network where
  id : GQuark
  bandwidthdown : Nat
  bandwidthup : Nat
  outgoingLinks : List Link
  incomingLinks : List Link
  deriving DecidableEq, Repr

/-- Modelled from the spec: the `Node` object of `shd-node.c`, which is not
part of the sources at hand. "Host: {id, network_id, address, hostname,
bandwidth_down, bandwidth_up, compute_capacity}"; the fields are the arguments
`internetwork_createNode` hands to `node_new`, the `Software*` as a handle. -/
structure Node where
  id : GQuark
  network : NetworkPtr
  software : Nat
  ip : Nat
  hostname : String
  bwDownKiBps : Nat
  bwUpKiBps : Nat
  cpuBps : Nat
  deriving DecidableEq, Repr

/-- The `mapIP` and `mapName` allocations of `internetwork_createNode`. Each
call makes one of either (`g_new0`, `g_strdup`); both carry the number of the
call. A `mapIP` is the key of an entry of `networksByIP`, the key of an entry of
`nameByIp` and the value of an entry of `ipByName`; a `mapName` is the key of
an entry of `ipByName` and the value of an entry of `nameByIp`. `ipByName` and
`nameByIp` were made with `g_free` as value destructor and no key destructor:
an entry that is replaced frees its value, which may still be a key elsewhere.

The three key tables give, for every entry of the three index tables, the
number of the allocation that is its key (the value of an entry of `ipByName`
or `nameByIp` has the number of its key, both being stored by one call).
`freedIP` and `freedName` are the numbers of the `mapIP` and `mapName`
allocations that were freed. `g_hash_table_lookup` and `g_hash_table_replace`
compare the key they are given with the stored key of the same hash, taken
here to be the stored key of the same value; when that key was freed the call
reads freed memory and its behaviour is undefined. The model does not stop
there: it carries on with the entries as they were stored and records the fact
in `freedKeyRead`. -/
structure KeyMemory where
  networksByIPKey : Table Nat Nat
  ipByNameKey : Table String Nat
  nameByIpKey : Table Nat Nat
  freedIP : List Nat
  freedName : List Nat
  allocations : Nat
  freedKeyRead : Bool
  deriving DecidableEq, Repr

/-- Whether the entry of `key`, if there is one, has a key that was freed: a
lookup of `key`, or a replacement of its entry, then compares against freed
memory. -/
def keyFreed {κ : Type} [DecidableEq κ] (keys : Table κ Nat) (freed : List Nat) (key : κ) :
    Bool :=
  match g_hash_table_lookup keys key with
  | some allocation => decide (allocation ∈ freed)
  | none => false

/-- The freed allocations after `g_hash_table_replace` ran `g_free`, the value
destructor, on the value of the entry of `key` it displaced, if there was one. -/
def freeDisplaced {κ : Type} [DecidableEq κ] (keys : Table κ Nat) (freed : List Nat)
    (key : κ) : List Nat :=
  match g_hash_table_lookup keys key with
  | some allocation => allocation :: freed
  | none => freed

/-- Whether one of the three `g_hash_table_replace` calls of
`internetwork_createNode` (lines 155 to 157) compares against a freed key. The
third call runs after the second has freed the value it displaced. -/
def KeyMemory.readsFreedKey (memory : KeyMemory) (mapIP : Nat) (mapName : String) : Bool :=
  keyFreed memory.networksByIPKey memory.freedIP mapIP ||
  keyFreed memory.ipByNameKey memory.freedName mapName ||
  keyFreed memory.nameByIpKey (freeDisplaced memory.ipByNameKey memory.freedIP mapName) mapIP

/-- What the three `g_hash_table_replace` calls of `internetwork_createNode` do
to the allocations: the new `mapIP` and `mapName` become the keys of the three
entries; `ipByName` frees the `mapIP` that was the value of the entry of
`mapName`, `nameByIp` frees the `mapName` that was the value of the entry of
`mapIP`; `networksByIP` has no destructor. -/
def KeyMemory.replaceEntries (memory : KeyMemory) (mapIP : Nat) (mapName : String) :
    KeyMemory :=
  { networksByIPKey := g_hash_table_replace memory.networksByIPKey mapIP memory.allocations
    ipByNameKey := g_hash_table_replace memory.ipByNameKey mapName memory.allocations
    nameByIpKey := g_hash_table_replace memory.nameByIpKey mapIP memory.allocations
    freedIP := freeDisplaced memory.ipByNameKey memory.freedIP mapName
    freedName := freeDisplaced memory.nameByIpKey memory.freedName mapIP
    allocations := memory.allocations + 1
    freedKeyRead := memory.freedKeyRead || memory.readsFreedKey mapIP mapName }

/-- The `struct _Internetwork`. Its declaration is in a header that is not
among the sources at hand; the fields are those `shd-internetwork.c` reads and
writes. `heap` and `brk` are the memory of the `Network` objects (live objects
by address, and the next address `network_new` hands out). The two latency
bounds hold the running values exactly, as `guint64` fields do; the getters
return them as `gdouble`, that is, rounded by `toDouble`. Were the fields
`gdouble` themselves, `MAX` and `MIN` would round the `guint64` operand on its
way in, and the getters would return the same values, rounding being monotone.
`keys` is the memory of the allocations the three index tables share. -/
structure Internetwork where
  isReadOnly : Bool
  nodes : Table Nat Node
  networks : Table GQuark NetworkPtr
  networksByIP : Table Nat NetworkPtr
  ipByName : Table String Nat
  nameByIp : Table Nat String
  maximumGlobalLatency : Nat
  minimumGlobalLatency : Nat
  ipCounter : Nat
  heap : Table NetworkPtr Network
  brk : Nat
  keys : KeyMemory
  deriving DecidableEq, Repr

/-- How a call ends: it returns a value and leaves a state, a `g_assert` in it
fails and the process aborts in the given state, or it never returns. -/
inductive Outcome (α : Type) where
  | returned : α → Internetwork → Outcome α
  | aborted : Internetwork → Outcome α
  | diverged : Outcome α
  deriving DecidableEq, Repr

/-! ## `internetwork_new` -/

/-- The C `internetwork_new`: `g_new0` zeroes every scalar field, the five
tables start empty. No `Network` object exists yet; address `0` is `NULL`, so
the first object goes to address `1`. -/
def internetwork_new : Internetwork :=
  { isReadOnly := false
    nodes := []
    networks := []
    networksByIP := []
    ipByName := []
    nameByIp := []
    maximumGlobalLatency := 0
    minimumGlobalLatency := 0
    ipCounter := 0
    heap := []
    brk := 1
    keys :=
      { networksByIPKey := []
        ipByNameKey := []
        nameByIpKey := []
        freedIP := []
        freedName := []
        allocations := 0
        freedKeyRead := false } }

/-! ## The address allocator -/

/-- The `while` loop of `_internetwork_generateIP` run on the counter value
`c`, for at most `fuel` turns: `some c'` is the counter at loop exit, `none`
means the loop is still running after `fuel` turns. -/
def generateIP_loop (littleEndian : Bool) : Nat → Nat → Option Nat
  | 0, c => if isReservedIP littleEndian c then none else some c
  | fuel + 1, c =>
    if isReservedIP littleEndian c then generateIP_loop littleEndian fuel ((c + 1) % U32)
    else some c

/-- The number of turns of the `while` loop of `_internetwork_generateIP` from
counter value `c`, counted up to `fuel`. -/
def generateIP_turns (littleEndian : Bool) : Nat → Nat → Nat
  | 0, _ => 0
  | fuel + 1, c =>
    if isReservedIP littleEndian c then generateIP_turns littleEndian fuel ((c + 1) % U32) + 1
    else 0

/-- The C `_internetwork_generateIP`. The counter has `2 ^ 32` values, so a
loop that has not left after `2 ^ 32` turns never leaves. -/
def _internetwork_generateIP (littleEndian : Bool) (internet : Internetwork) : Outcome Nat :=
  match generateIP_loop littleEndian U32 ((internet.ipCounter + 1) % U32) with
  | some c => .returned c { internet with ipCounter := c }
  | none => .diverged

/-! ## Network, link and node objects -/

/-- Modelled from the spec: `network_new` of `shd-network.c`, not part of the
sources at hand. "inserts a new Network with empty link sets": the object is
placed at the next free address. -/
def network_new (internet : Internetwork) (networkID bandwidthdown bandwidthup : Nat) :
    NetworkPtr × Internetwork :=
  (internet.brk,
   { internet with
     heap := (internet.brk,
       { id := networkID, bandwidthdown := bandwidthdown, bandwidthup := bandwidthup,
         outgoingLinks := [], incomingLinks := [] }) :: internet.heap
     brk := internet.brk + 1 })

/-- Modelled from the spec: `network_free` of `shd-network.c`, the value
destructor of the `networks` table; the object leaves the heap. -/
def network_free (internet : Internetwork) (network : NetworkPtr) : Internetwork :=
  { internet with heap := Table.erase internet.heap network }

/-- Modelled from the spec: `link_new` of `shd-link.c`, not part of the sources
at hand. "constructs a Link" from the two end points and the three figures. -/
def link_new (sourceNetwork destinationNetwork : NetworkPtr) (latency jitter packetloss : Nat) :
    Link :=
  { sourceNetwork := sourceNetwork, destinationNetwork := destinationNetwork,
    latency := latency, jitter := jitter, packetloss := packetloss }

/-- Modelled from the spec: `link_getLatency` of `shd-link.c`. -/
def link_getLatency (link : Link) : Nat := link.latency

/-- Modelled from the spec: `link_getJitter` of `shd-link.c`. -/
def link_getJitter (link : Link) : Nat := link.jitter

/-- The object at `network` rewritten by `f`; other objects are untouched. -/
def Table.modify {ν : Type} : Table NetworkPtr ν → NetworkPtr → (ν → ν) → Table NetworkPtr ν
  | [], _, _ => []
  | (k, v) :: t, key, f =>
    if k = key then (k, f v) :: Table.modify t key f else (k, v) :: Table.modify t key f

/-- Modelled from the spec: `network_addOutgoingLink` of `shd-network.c`.
"appends it to source's outgoing set". -/
def network_addOutgoingLink (internet : Internetwork) (network : NetworkPtr) (link : Link) :
    Internetwork :=
  { internet with
    heap := Table.modify internet.heap network
      (fun n => { n with outgoingLinks := n.outgoingLinks ++ [link] }) }

/-- Modelled from the spec: `network_addIncomingLink` of `shd-network.c`.
"appends it to ... dest's incoming set". -/
def network_addIncomingLink (internet : Internetwork) (network : NetworkPtr) (link : Link) :
    Internetwork :=
  { internet with
    heap := Table.modify internet.heap network
      (fun n => { n with incomingLinks := n.incomingLinks ++ [link] }) }

/-- Modelled from the spec: `node_new` of `shd-node.c`, not part of the sources
at hand: the host record made of the arguments. -/
def node_new (nodeID : GQuark) (network : NetworkPtr) (software : Nat) (ip : Nat)
    (hostname : String) (bwDownKiBps bwUpKiBps cpuBps : Nat) : Node :=
  { id := nodeID, network := network, software := software, ip := ip, hostname := hostname,
    bwDownKiBps := bwDownKiBps, bwUpKiBps := bwUpKiBps, cpuBps := cpuBps }

/-- Modelled from the spec: `node_getNetwork` of `shd-node.c`, "resolve each
host to its owning network". -/
def node_getNetwork (node : Node) : NetworkPtr := node.network

/-! ## The construction interface -/

/-- The C `_internetwork_trackLatency`. -/
def _internetwork_trackLatency (internet : Internetwork) (link : Link) : Internetwork :=
  let latency := link_getLatency link
  let jitter := link_getJitter link
  let internet1 :=
    { internet with
      maximumGlobalLatency := MAX internet.maximumGlobalLatency (add64 latency jitter) }
  { internet1 with
    minimumGlobalLatency := MIN internet1.minimumGlobalLatency (sub64 latency jitter) }

/-- The C `internetwork_getNetwork`. -/
def internetwork_getNetwork (internet : Internetwork) (networkID : GQuark) : NetworkPtr :=
  (g_hash_table_lookup internet.networks networkID).getD NULL

/-- The C `internetwork_createNetwork`. The `networks` table was made with
`network_free` as value destructor, so `g_hash_table_replace` frees the object a
previous entry of the key pointed to. -/
def internetwork_createNetwork (internet : Internetwork)
    (networkID : GQuark) (bandwidthdown bandwidthup : Nat) : Outcome Unit :=
  if internet.isReadOnly then .aborted internet
  else
    let (network, internet1) := network_new internet networkID bandwidthdown bandwidthup
    let internet2 :=
      match g_hash_table_lookup internet1.networks networkID with
      | some old => network_free internet1 old
      | none => internet1
    .returned ()
      { internet2 with networks := g_hash_table_replace internet2.networks networkID network }

/-- The C `internetwork_connectNetworks`. -/
def internetwork_connectNetworks (internet : Internetwork)
    (sourceClusterID destinationClusterID : GQuark) (latency jitter packetloss : Nat) :
    Outcome Unit :=
  if internet.isReadOnly then .aborted internet
  else
    let sourceNetwork := internetwork_getNetwork internet sourceClusterID
    let destinationNetwork := internetwork_getNetwork internet destinationClusterID
    if sourceNetwork ≠ NULL ∧ destinationNetwork ≠ NULL then
      let link := link_new sourceNetwork destinationNetwork latency jitter packetloss
      let internet1 := network_addOutgoingLink internet sourceNetwork link
      let internet2 := network_addIncomingLink internet1 destinationNetwork link
      .returned () (_internetwork_trackLatency internet2 link)
    else .aborted internet

/-- The C `internetwork_createNode`. The address drawn from the allocator is
overwritten by `(guint32) nodeID`; the node table is keyed by `(guint) nodeID`.
The three index tables are updated by value, `keys` follows the allocations
behind them. -/
def internetwork_createNode (littleEndian : Bool) (internet : Internetwork) (nodeID : GQuark)
    (network : NetworkPtr) (software : Nat) (hostname : String)
    (bwDownKiBps bwUpKiBps cpuBps : Nat) : Outcome Unit :=
  if internet.isReadOnly then .aborted internet
  else
    match _internetwork_generateIP littleEndian internet with
    | .returned _ internet1 =>
      let ip := nodeID % U32
      let node := node_new nodeID network software ip hostname bwDownKiBps bwUpKiBps cpuBps
      let internet2 :=
        { internet1 with nodes := g_hash_table_replace internet1.nodes (nodeID % U32) node }
      let mapName := hostname
      let mapIP := ip
      let internet3 :=
        { internet2 with
          networksByIP := g_hash_table_replace internet2.networksByIP mapIP network }
      let internet4 :=
        { internet3 with ipByName := g_hash_table_replace internet3.ipByName mapName mapIP }
      .returned ()
        { internet4 with
          nameByIp := g_hash_table_replace internet4.nameByIp mapIP mapName
          keys := KeyMemory.replaceEntries internet4.keys mapIP mapName }
    | .aborted s => .aborted s
    | .diverged => .diverged

/-! ## The query interface -/

/-- The C `internetwork_getRandomNetwork`. `r` is the value drawn from the
worker's random source, a number of `[0, 1)`; the product `length * r` is exact
for the lengths `0` and `1`. `g_list_nth_data` yields `NULL` off the end of the
list; `n >= 0` holds of every `guint`. -/
def internetwork_getRandomNetwork (internet : Internetwork) (r : ℚ) : Outcome NetworkPtr :=
  let networkList := g_hash_table_get_values internet.networks
  let length := networkList.length
  let n := ⌊(length : ℚ) * r⌋₊
  if n ≤ length then .returned (networkList.getD n NULL) internet
  else .aborted internet

/-- The C `internetwork_lookupNetwork`. -/
def internetwork_lookupNetwork (internet : Internetwork) (ip : Nat) : NetworkPtr :=
  (g_hash_table_lookup internet.networksByIP ip).getD NULL

/-- Whether `internetwork_lookupNetwork` at `ip` compares against a freed key:
the `mapIP` that is the key of the entry of `ip` in `networksByIP` was freed.
The call then reads freed memory and what it returns is not defined. -/
def internetwork_lookupNetwork_freedKey (internet : Internetwork) (ip : Nat) : Bool :=
  keyFreed internet.keys.networksByIPKey internet.keys.freedIP ip

/-- The C `internetwork_getNode`; `none` is `NULL`. -/
def internetwork_getNode (internet : Internetwork) (nodeID : GQuark) : Option Node :=
  g_hash_table_lookup internet.nodes (nodeID % U32)

/-- The C `internetwork_resolveName`: `g_quark_try_string(name)`, read from the
table of interned strings of the process. The registry is not read; the lookup
in `ipByName` is commented out in the source. -/
def internetwork_resolveName (quarks : QuarkTable) (_internet : Internetwork)
    (name : String) : Nat :=
  g_quark_try_string quarks name

/-- The C `internetwork_resolveIP`; `none` is `NULL`. -/
def internetwork_resolveIP (internet : Internetwork) (ip : Nat) : Option String :=
  g_hash_table_lookup internet.nameByIp ip

/-- Whether `internetwork_resolveIP` at `ip` compares against a freed key: the
`mapIP` that is the key of the entry of `ip` in `nameByIp` was freed. The call
then reads freed memory and what it returns is not defined. -/
def internetwork_resolveIP_freedKey (internet : Internetwork) (ip : Nat) : Bool :=
  keyFreed internet.keys.nameByIpKey internet.keys.freedIP ip

/-- Whether the entry of `name` in `ipByName`, if there is one, has a freed
key: the `mapName` that is its key was freed. A lookup of `name` in `ipByName`,
or a `createNode` call for that hostname, then reads freed memory. -/
def ipByName_freedKey (internet : Internetwork) (name : String) : Bool :=
  keyFreed internet.keys.ipByNameKey internet.keys.freedName name

/-- The C `internetwork_getMaximumGlobalLatency`; the result is a `gdouble`. -/
def internetwork_getMaximumGlobalLatency (internet : Internetwork) : Nat :=
  toDouble internet.maximumGlobalLatency

/-- The C `internetwork_getMinimumGlobalLatency`; the result is a `gdouble`. -/
def internetwork_getMinimumGlobalLatency (internet : Internetwork) : Nat :=
  toDouble internet.minimumGlobalLatency

/-- The C `internetwork_getReliability`. `network_getLinkReliability` belongs
to `shd-network.c`; it reads the two `Network` objects, so it is a function of
the heap and the two addresses. `none`: a host is missing and `node_getNetwork`
is handed `NULL`. -/
def internetwork_getReliability
    (network_getLinkReliability : Table NetworkPtr Network → NetworkPtr → NetworkPtr → Nat)
    (internet : Internetwork) (sourceNodeID destinationNodeID : GQuark) : Option Nat :=
  match internetwork_getNode internet sourceNodeID,
        internetwork_getNode internet destinationNodeID with
  | some sourceNode, some destinationNode =>
    some (network_getLinkReliability internet.heap
      (node_getNetwork sourceNode) (node_getNetwork destinationNode))
  | _, _ => none

/-- The C `internetwork_getLatency`. `network_getLinkLatency` belongs to
`shd-network.c`; it reads the two `Network` objects, so it is a function of the
heap, the two addresses and the percentile. `none`: a host is missing and
`node_getNetwork` is handed `NULL`. -/
def internetwork_getLatency
    (network_getLinkLatency :
      Table NetworkPtr Network → NetworkPtr → NetworkPtr → Nat → Nat)
    (internet : Internetwork) (sourceNodeID destinationNodeID : GQuark) (percentile : Nat) :
    Option Nat :=
  match internetwork_getNode internet sourceNodeID,
        internetwork_getNode internet destinationNodeID with
  | some sourceNode, some destinationNode =>
    some (network_getLinkLatency internet.heap
      (node_getNetwork sourceNode) (node_getNetwork destinationNode) percentile)
  | _, _ => none

/-! ## Sequences of construction calls -/

/-- One call of the construction interface, with its arguments. -/
inductive Call where
  | createNetwork (networkID : GQuark) (bandwidthdown bandwidthup : Nat)
  | connectNetworks (sourceClusterID destinationClusterID : GQuark)
      (latency jitter packetloss : Nat)
  | createNode (nodeID : GQuark) (network : NetworkPtr) (software : Nat) (hostname : String)
      (bwDownKiBps bwUpKiBps cpuBps : Nat)
  deriving DecidableEq, Repr

/-- One call made on the registry. -/
def Call.exec (littleEndian : Bool) (internet : Internetwork) : Call → Outcome Unit
  | .createNetwork networkID bandwidthdown bandwidthup =>
    internetwork_createNetwork internet networkID bandwidthdown bandwidthup
  | .connectNetworks s d latency jitter packetloss =>
    internetwork_connectNetworks internet s d latency jitter packetloss
  | .createNode nodeID network software hostname bwDown bwUp cpuBps =>
    internetwork_createNode littleEndian internet nodeID network software hostname
      bwDown bwUp cpuBps

/-- The calls made one after the other; `some s` when every one of them
returned, `s` being the state after the last. -/
def runCalls (littleEndian : Bool) : Internetwork → List Call → Option Internetwork
  | internet, [] => some internet
  | internet, c :: cs =>
    match Call.exec littleEndian internet c with
    | .returned _ internet1 => runCalls littleEndian internet1 cs
    | .aborted _ => none
    | .diverged => none

/-- The `(latency, jitter)` pairs of the `connectNetworks` calls of a sequence. -/
def linkFigures : List Call → List (Nat × Nat)
  | [] => []
  | .connectNetworks _ _ latency jitter _ :: cs => (latency, jitter) :: linkFigures cs
  | _ :: cs => linkFigures cs

/-- The host record a call stores: the `Node` that `internetwork_createNode`
builds with `node_new`, its address being `(guint32) nodeID`; `none` for the
other calls. -/
def Call.node? : Call → Option Node
  | .createNode nodeID network software hostname bwDown bwUp cpuBps =>
    some (node_new nodeID network software (nodeID % U32) hostname bwDown bwUp cpuBps)
  | _ => none

/-- The host records the `createNode` calls of a sequence store, in order. -/
def createdHosts (cs : List Call) : List Node :=
  cs.filterMap Call.node?

/-! ## Concrete runs -/

/-- The end-to-end scenario of the specification: networks `N1` (identifier 11)
and `N2` (identifier 12), a link `N1 → N2` of latency 50 and jitter 5, host
`alice` (identifier 21) on `N1` and host `bob` (identifier 22) on `N2`. The
first `Network` object lies at address `1`, the second at address `2`. -/
def scenario : List Call :=
  [.createNetwork 11 1000 500, .createNetwork 12 2000 1000, .connectNetworks 11 12 50 5 1,
   .createNode 21 1 0 "alice" 100 100 100, .createNode 22 2 0 "bob" 100 100 100]

/-- The registry the scenario leaves. -/
def scenarioState : Internetwork :=
  (runCalls true internetwork_new scenario).getD internetwork_new

/-- One network, then host 21 created under the hostname `alice` and created
again under the hostname `bob`. -/
def renamedHost : List Call :=
  [.createNetwork 11 1000 500,
   .createNode 21 1 0 "alice" 100 100 100, .createNode 21 1 0 "bob" 100 100 100]

/-- One network, then the hostname `alice` given to host 21 and again to host
22. -/
def twoAlices : List Call :=
  [.createNetwork 11 1000 500,
   .createNode 21 1 0 "alice" 100 100 100, .createNode 22 1 0 "alice" 100 100 100]

/-- The registry of the scenario, frozen. -/
def frozenScenario : Internetwork :=
  { scenarioState with isReadOnly := true }

/-- The registry after a single `createNetwork` call: network 11 alone. -/
def oneNetwork : Internetwork :=
  (runCalls true internetwork_new [.createNetwork 11 1000 500]).getD internetwork_new

/-- The registry of the scenario with a third host, `carol` (identifier 23), on
`N1`, the network of `alice`. -/
def threeHosts : Internetwork :=
  (runCalls true scenarioState [.createNode 23 1 0 "carol" 100 100 100]).getD scenarioState

/-- A stand-in for the statistical model of a pair of networks. -/
def sampleModel (_heap : Table NetworkPtr Network) (source destination : NetworkPtr)
    (percentile : Nat) : Nat :=
  1000 * source + 10 * destination + percentile

/-- The number of times one call of `_internetwork_generateIP` increments the
counter: the `ipCounter++` before the loop and one per turn of the loop. -/
def generateIP_increments (littleEndian : Bool) (internet : Internetwork) : Nat :=
  1 + generateIP_turns littleEndian U32 ((internet.ipCounter + 1) % U32)

/-- The registry after two `createNetwork` calls: networks 11 and 12, no link. -/
def twoNetworks : Internetwork :=
  (runCalls true internetwork_new
    [.createNetwork 11 1000 500, .createNetwork 12 2000 1000]).getD internetwork_new

/-- A registry whose address counter stands three below the wrap. -/
def nearWrap : Internetwork :=
  { internetwork_new with ipCounter := 0xfffffffd }

/-- The registry holding network 11 and, on it, host 21 under the hostname
`alice`. -/
def hostAlice : Internetwork :=
  (runCalls true internetwork_new
    [.createNetwork 11 1000 500, .createNode 21 1 0 "alice" 100 100 100]).getD internetwork_new

/-- The strings the builder of the scenario interns, in this order, on an empty
table: the names of the two networks and of the two hosts. Their quarks are 1,
2, 3 and 4. -/
def internedNames : QuarkTable :=
  internAll [] ["N1", "N2", "alice", "bob"]

/-- The scenario of the specification with the quarks of `internedNames` as
identifiers: networks 1 (`N1`) and 2 (`N2`), hosts 3 (`alice`) and 4 (`bob`). -/
def quarkScenario : List Call :=
  [.createNetwork 1 1000 500, .createNetwork 2 2000 1000, .connectNetworks 1 2 50 5 1,
   .createNode 3 1 0 "alice" 100 100 100, .createNode 4 2 0 "bob" 100 100 100]

/-- The registry `quarkScenario` leaves. -/
def quarkScenarioState : Internetwork :=
  (runCalls true internetwork_new quarkScenario).getD internetwork_new

/-! ## Tables -/

theorem lookup_erase {κ ν : Type} [DecidableEq κ] (t : Table κ ν) (key k : κ) :
    g_hash_table_lookup (Table.erase t key) k =
      if key = k then none else g_hash_table_lookup t k := by
  induction t with
  | nil => simp [Table.erase, g_hash_table_lookup]
  | cons e t ih =>
    obtain ⟨a, b⟩ := e
    by_cases h1 : a = key
    · subst h1
      by_cases h2 : a = k
      · subst h2
        simpa [Table.erase] using ih
      · simp [Table.erase, g_hash_table_lookup, ih, h2]
    · by_cases h2 : a = k
      · subst h2
        have h3 : ¬ key = a := fun h => h1 h.symm
        simp [Table.erase, g_hash_table_lookup, h1, h3]
      · simp [Table.erase, g_hash_table_lookup, ih, h1, h2]

theorem lookup_replace {κ ν : Type} [DecidableEq κ] (t : Table κ ν) (key k : κ) (v : ν) :
    g_hash_table_lookup (g_hash_table_replace t key v) k =
      if key = k then some v else g_hash_table_lookup t k := by
  by_cases h : key = k
  · simp [g_hash_table_replace, g_hash_table_lookup, h]
  · simp [g_hash_table_replace, g_hash_table_lookup, h, lookup_erase]

/-! ## The address allocator -/

theorem isReservedIP_iff (le : Bool) (c : Nat) :
    isReservedIP le c = true ↔
      c = 0xffffffff ∨ c = 0 ∨ c = (if le then 0x0100007f else 0x7f000001) := by
  cases le <;>
    simp [isReservedIP, htonl, INADDR_NONE, INADDR_ANY, INADDR_LOOPBACK, INADDR_BROADCAST] <;>
    omega

theorem generateIP_loop_exit (le : Bool) (k c : Nat) (hc : c < U32) :
    ∃ r, generateIP_loop le (k + 2) c = some r ∧ isReservedIP le r = false ∧ r < U32 ∧
      (r = c ∨ r = (c + 1) % U32 ∨ r = (c + 2) % U32) := by
  by_cases h0 : isReservedIP le c = true
  · rcases (isReservedIP_iff le c).1 h0 with h | h | h
    · subst h
      have h1 : isReservedIP le 0 = true := (isReservedIP_iff le 0).2 (by simp)
      have h2 : isReservedIP le 1 = false := by
        cases le <;> decide
      refine ⟨1, ?_, h2, by decide, Or.inr (Or.inr (by decide))⟩
      have e1 : (0xffffffff + 1) % U32 = 0 := by decide
      have e2 : (0 + 1) % U32 = 1 := by decide
      cases k <;> simp [generateIP_loop, h0, h1, h2, e1, e2]
    · subst h
      have h2 : isReservedIP le 1 = false := by
        cases le <;> decide
      refine ⟨1, ?_, h2, by decide, Or.inr (Or.inl (by decide))⟩
      have e2 : (0 + 1) % U32 = 1 := by decide
      simp [generateIP_loop, h0, h2, e2]
    · cases le
      · simp at h
        subst h
        have h2 : isReservedIP false 0x7f000002 = false := by decide
        have e2 : (0x7f000001 + 1) % U32 = 0x7f000002 := by decide
        refine ⟨0x7f000002, ?_, h2, by decide, Or.inr (Or.inl (by decide))⟩
        cases k <;> simp [generateIP_loop, h0, h2, e2]
      · simp at h
        subst h
        have h2 : isReservedIP true 0x01000080 = false := by decide
        have e2 : (0x0100007f + 1) % U32 = 0x01000080 := by decide
        refine ⟨0x01000080, ?_, h2, by decide, Or.inr (Or.inl (by decide))⟩
        cases k <;> simp [generateIP_loop, h0, h2, e2]
  · have h0f : isReservedIP le c = false := by simpa using h0
    exact ⟨c, by simp [generateIP_loop, h0f], h0f, hc, Or.inl rfl⟩

theorem generateIP_returns (le : Bool) (internet : Internetwork) :
    ∃ ip, _internetwork_generateIP le internet = .returned ip { internet with ipCounter := ip } ∧
      isReservedIP le ip = false ∧ ip < U32 := by
  have hc : (internet.ipCounter + 1) % U32 < U32 := Nat.mod_lt _ (by decide)
  obtain ⟨r, hr, hres, hlt, _⟩ := generateIP_loop_exit le 4294967294 _ hc
  have hr2 : generateIP_loop le U32 ((internet.ipCounter + 1) % U32) = some r := hr
  exact ⟨r, by simp [_internetwork_generateIP, hr2], hres, hlt⟩

theorem generateIP_advances (le : Bool) (internet : Internetwork) :
    ∃ ip, _internetwork_generateIP le internet = .returned ip { internet with ipCounter := ip } ∧
      ip ≠ internet.ipCounter := by
  have hU : U32 = 4294967296 := by decide
  have hc1 : (internet.ipCounter + 1) % U32 < U32 := Nat.mod_lt _ (by decide)
  obtain ⟨r, hr, _, _, hstep⟩ := generateIP_loop_exit le 4294967294 _ hc1
  have hr2 : generateIP_loop le U32 ((internet.ipCounter + 1) % U32) = some r := hr
  refine ⟨r, by simp [_internetwork_generateIP, hr2], ?_⟩
  rw [hU] at hstep
  omega

/-! ## C1 -/

/-- C1, the code at the failing input: on a fresh registry two networks are
created and joined by one link of latency 50 and jitter 5; the bounds read back
are `(0, 55)`, the minimum is not the `45` of the claim. -/
theorem C1_single_link_bounds_are_0_55 :
    (runCalls true internetwork_new
        [.createNetwork 11 1000 500, .createNetwork 12 2000 1000,
         .connectNetworks 11 12 50 5 1]).map
      (fun s => (internetwork_getMinimumGlobalLatency s,
                 internetwork_getMaximumGlobalLatency s)) = some (0, 55) := by
  decide

/-! ## C3 -/

/-- C3: for every value of the address counter (and either byte order of the
host) `_internetwork_generateIP` returns, and the address it returns is a 32-bit
value different from `htonl(INADDR_NONE)`, `htonl(INADDR_ANY)`,
`htonl(INADDR_LOOPBACK)` and `htonl(INADDR_BROADCAST)`. -/
theorem C3_generateIP_never_reserved (littleEndian : Bool) (internet : Internetwork) :
    ∃ ip s, _internetwork_generateIP littleEndian internet = .returned ip s ∧
      ip < U32 ∧
      ip ≠ htonl littleEndian INADDR_NONE ∧
      ip ≠ htonl littleEndian INADDR_ANY ∧
      ip ≠ htonl littleEndian INADDR_LOOPBACK ∧
      ip ≠ htonl littleEndian INADDR_BROADCAST := by
  obtain ⟨ip, hret, hres, hlt⟩ := generateIP_returns littleEndian internet
  refine ⟨ip, _, hret, hlt, ?_⟩
  simp only [isReservedIP, Bool.or_eq_false_iff, beq_eq_false_iff_ne] at hres
  exact ⟨hres.1.1.1, hres.1.1.2, hres.1.2, hres.2⟩

/-! ## What one call does to the registry -/

theorem createNetwork_frame (s s1 : Internetwork) (id bd bu : Nat) (u : Unit)
    (h : internetwork_createNetwork s id bd bu = .returned u s1) :
    s1.nodes = s.nodes ∧ s1.networksByIP = s.networksByIP ∧ s1.ipByName = s.ipByName ∧
      s1.nameByIp = s.nameByIp ∧ s1.maximumGlobalLatency = s.maximumGlobalLatency ∧
      s1.minimumGlobalLatency = s.minimumGlobalLatency ∧ s1.ipCounter = s.ipCounter ∧
      s1.isReadOnly = s.isReadOnly ∧ s1.keys = s.keys := by
  unfold internetwork_createNetwork at h
  split at h
  · cases h
  · simp only [network_new, network_free] at h
    split at h <;> (injection h with _ h; subst h; simp)

theorem connectNetworks_frame (s s1 : Internetwork) (a b l j p : Nat) (u : Unit)
    (h : internetwork_connectNetworks s a b l j p = .returned u s1) :
    s1.nodes = s.nodes ∧ s1.networksByIP = s.networksByIP ∧ s1.ipByName = s.ipByName ∧
      s1.nameByIp = s.nameByIp ∧ s1.networks = s.networks ∧
      s1.maximumGlobalLatency = MAX s.maximumGlobalLatency (add64 l j) ∧
      s1.minimumGlobalLatency = MIN s.minimumGlobalLatency (sub64 l j) ∧
      s1.ipCounter = s.ipCounter ∧ s1.isReadOnly = s.isReadOnly ∧ s1.keys = s.keys := by
  unfold internetwork_connectNetworks at h
  split at h
  · cases h
  · simp only [] at h
    split at h
    · injection h with _ h
      subst h
      simp [_internetwork_trackLatency, network_addIncomingLink, network_addOutgoingLink,
        link_new, link_getLatency, link_getJitter]
    · cases h

theorem createNode_returns (le : Bool) (s : Internetwork) (hs : s.isReadOnly = false)
    (nodeID network software : Nat) (hostname : String) (bd bu cpu : Nat) :
    ∃ c, c ≠ s.ipCounter ∧ c < U32 ∧ isReservedIP le c = false ∧
      internetwork_createNode le s nodeID network software hostname bd bu cpu =
        .returned ()
          { s with
            ipCounter := c
            nodes := g_hash_table_replace s.nodes (nodeID % U32)
              (node_new nodeID network software (nodeID % U32) hostname bd bu cpu)
            networksByIP := g_hash_table_replace s.networksByIP (nodeID % U32) network
            ipByName := g_hash_table_replace s.ipByName hostname (nodeID % U32)
            nameByIp := g_hash_table_replace s.nameByIp (nodeID % U32) hostname
            keys := KeyMemory.replaceEntries s.keys (nodeID % U32) hostname } := by
  obtain ⟨c, hret, hne⟩ := generateIP_advances le s
  obtain ⟨c2, hret2, hres, hlt⟩ := generateIP_returns le s
  have hcc : c2 = c := by
    rw [hret] at hret2
    injection hret2 with h1 _
    exact h1.symm
  subst hcc
  exact ⟨c2, hne, hlt, hres, by simp [internetwork_createNode, hs, hret]⟩

theorem createNode_frame (le : Bool) (s s1 : Internetwork)
    (nodeID network software : Nat) (hostname : String) (bd bu cpu : Nat) (u : Unit)
    (h : internetwork_createNode le s nodeID network software hostname bd bu cpu =
      .returned u s1) :
    s1.nodes = g_hash_table_replace s.nodes (nodeID % U32)
        (node_new nodeID network software (nodeID % U32) hostname bd bu cpu) ∧
      s1.networksByIP = g_hash_table_replace s.networksByIP (nodeID % U32) network ∧
      s1.ipByName = g_hash_table_replace s.ipByName hostname (nodeID % U32) ∧
      s1.nameByIp = g_hash_table_replace s.nameByIp (nodeID % U32) hostname ∧
      s1.networks = s.networks ∧ s1.heap = s.heap ∧
      s1.maximumGlobalLatency = s.maximumGlobalLatency ∧
      s1.minimumGlobalLatency = s.minimumGlobalLatency ∧ s1.isReadOnly = s.isReadOnly ∧
      s1.keys = KeyMemory.replaceEntries s.keys (nodeID % U32) hostname := by
  cases hs : s.isReadOnly
  · obtain ⟨c, _, _, _, hret⟩ := createNode_returns le s hs nodeID network software hostname bd bu cpu
    rw [hret] at h
    injection h with _ h
    subst h
    simp [hs]
  · simp [internetwork_createNode, hs] at h

theorem runCalls_cons (le : Bool) (s s2 : Internetwork) (c : Call) (cs : List Call) :
    runCalls le s (c :: cs) = some s2 ↔
      ∃ s1, Call.exec le s c = .returned () s1 ∧ runCalls le s1 cs = some s2 := by
  constructor
  · intro h
    simp only [runCalls] at h
    split at h
    · next u s1 he => exact ⟨s1, he, h⟩
    · cases h
    · cases h
  · rintro ⟨s1, he, h⟩
    simp [runCalls, he, h]

theorem exec_tables (le : Bool) (s s1 : Internetwork) (c : Call) (u : Unit)
    (h : Call.exec le s c = .returned u s1) :
    (c.node? = none ∧ s1.nodes = s.nodes ∧ s1.networksByIP = s.networksByIP ∧
        s1.ipByName = s.ipByName ∧ s1.nameByIp = s.nameByIp) ∨
      (∃ n, c.node? = some n ∧ n.ip = n.id % U32 ∧
        s1.nodes = g_hash_table_replace s.nodes n.ip n ∧
        s1.networksByIP = g_hash_table_replace s.networksByIP n.ip n.network ∧
        s1.ipByName = g_hash_table_replace s.ipByName n.hostname n.ip ∧
        s1.nameByIp = g_hash_table_replace s.nameByIp n.ip n.hostname) := by
  cases c with
  | createNetwork id bd bu =>
    obtain ⟨h1, h2, h3, h4, _⟩ := createNetwork_frame s s1 id bd bu u h
    exact Or.inl ⟨rfl, h1, h2, h3, h4⟩
  | connectNetworks a b l j p =>
    obtain ⟨h1, h2, h3, h4, _⟩ := connectNetworks_frame s s1 a b l j p u h
    exact Or.inl ⟨rfl, h1, h2, h3, h4⟩
  | createNode nodeID network software hostname bd bu cpu =>
    obtain ⟨h1, h2, h3, h4, _⟩ :=
      createNode_frame le s s1 nodeID network software hostname bd bu cpu u h
    exact Or.inr ⟨_, rfl, rfl, h1, h2, h3, h4⟩

/-- The entry of `nameByIp` under `k` after a run: the one from before the run
when no call of the run wrote a host of address `k`, else the hostname of one of
the calls that did. -/
theorem nameByIp_after_run (le : Bool) (cs : List Call) :
    ∀ s0 s : Internetwork, runCalls le s0 cs = some s →
      ∀ k,
        (g_hash_table_lookup s.nameByIp k = g_hash_table_lookup s0.nameByIp k ∧
          ∀ c ∈ cs, ∀ n, c.node? = some n → n.ip ≠ k) ∨
        (∃ c ∈ cs, ∃ n, c.node? = some n ∧ n.ip = k ∧
          g_hash_table_lookup s.nameByIp k = some n.hostname) := by
  induction cs with
  | nil =>
    intro s0 s h k
    simp only [runCalls, Option.some.injEq] at h
    subst h
    exact Or.inl ⟨rfl, by simp⟩
  | cons c cs ih =>
    intro s0 s h k
    obtain ⟨s1, he, hr⟩ := (runCalls_cons le s0 s c cs).1 h
    rcases ih s1 s hr k with ⟨h1, h2⟩ | ⟨c2, hc2, n, hn2, hip, hname⟩
    · rcases exec_tables le s0 s1 c () he with ⟨hnone, _, _, _, e4⟩ | ⟨n, hcn, _, _, _, _, e4⟩
      · rw [e4] at h1
        refine Or.inl ⟨h1, ?_⟩
        intro c2 hc2 n hn
        rcases List.mem_cons.1 hc2 with rfl | hmem
        · rw [hnone] at hn
          cases hn
        · exact h2 c2 hmem n hn
      · rw [e4, lookup_replace] at h1
        by_cases hk : n.ip = k
        · simp only [hk, if_true] at h1
          exact Or.inr ⟨c, List.mem_cons_self _ _, n, hcn, hk, h1⟩
        · simp only [hk, if_false] at h1
          refine Or.inl ⟨h1, ?_⟩
          intro c2 hc2 n2 hn
          rcases List.mem_cons.1 hc2 with rfl | hmem
          · rw [hcn] at hn
            injection hn with hn
            subst hn
            exact hk
          · exact h2 c2 hmem n2 hn
    · exact Or.inr ⟨c2, List.mem_cons_of_mem _ hc2, n, hn2, hip, hname⟩

theorem node?_ip (c : Call) (n : Node) (h : c.node? = some n) : n.ip = n.id % U32 := by
  cases c <;> simp [Call.node?, node_new] at h
  subst h
  rfl

theorem scenario_runs : runCalls true internetwork_new scenario = some scenarioState := by
  decide

/-! ## C2 -/

/-- C2, counterexample: host 21 is created under the hostname `alice` and
created again under the hostname `bob`. The run succeeds, and whatever the
table of interned strings is, `resolveIP (resolveName "alice")` is not `alice`:
the only name left in `nameByIp` is `bob`. No freed key is read on the way: no
`mapIP` was freed at all. -/
theorem C2_roundtrip_fails_on_reused_identifier :
    ∃ s, runCalls true internetwork_new renamedHost = some s ∧
      s.keys.freedKeyRead = false ∧ s.keys.freedIP = [] ∧
      ∀ quarks : QuarkTable,
        ¬ (internetwork_resolveIP s (internetwork_resolveName quarks s "alice") =
            some "alice") := by
  have hsome : (runCalls true internetwork_new renamedHost).isSome = true := by decide
  obtain ⟨s, hs⟩ := Option.isSome_iff_exists.1 hsome
  have e : (runCalls true internetwork_new renamedHost).map (fun s => s.nameByIp) =
      some [(21, "bob")] := by decide
  have ek : (runCalls true internetwork_new renamedHost).map
      (fun s => (s.keys.freedKeyRead, s.keys.freedIP)) = some (false, []) := by decide
  rw [hs] at e ek
  simp only [Option.map_some', Option.some.injEq, Prod.mk.injEq] at e ek
  refine ⟨s, hs, ek.1, ek.2, ?_⟩
  intro quarks h
  simp only [internetwork_resolveIP, e, g_hash_table_lookup] at h
  split at h
  · exact absurd h (by decide)
  · cases h

/-! ## C4 -/

/-- C4: on a registry whose `isReadOnly` flag is set, `createNetwork`,
`connectNetworks` and `createNode` fail at their first assertion for all
arguments, and the state at the abort is the state before the call, in every
field. -/
theorem C4_frozen_registry_rejects_construction (littleEndian : Bool) (internet : Internetwork)
    (hfrozen : internet.isReadOnly = true) :
    (∀ networkID bandwidthdown bandwidthup,
        internetwork_createNetwork internet networkID bandwidthdown bandwidthup =
          .aborted internet) ∧
      (∀ sourceID destinationID latency jitter packetloss,
        internetwork_connectNetworks internet sourceID destinationID latency jitter packetloss =
          .aborted internet) ∧
      (∀ nodeID network software hostname bwDown bwUp cpuBps,
        internetwork_createNode littleEndian internet nodeID network software hostname
          bwDown bwUp cpuBps = .aborted internet) := by
  refine ⟨?_, ?_, ?_⟩
  · intro networkID bandwidthdown bandwidthup
    simp [internetwork_createNetwork, hfrozen]
  · intro sourceID destinationID latency jitter packetloss
    simp [internetwork_connectNetworks, hfrozen]
  · intro nodeID network software hostname bwDown bwUp cpuBps
    simp [internetwork_createNode, hfrozen]

/-- C4 at the frozen scenario: a fresh network, a link between the two
registered networks and a fresh host are all refused. -/
theorem C4_frozen_witness :
    internetwork_createNetwork frozenScenario 13 3000 1500 = .aborted frozenScenario ∧
      internetwork_connectNetworks frozenScenario 12 11 50 5 1 = .aborted frozenScenario ∧
      internetwork_createNode true frozenScenario 23 1 0 "carol" 100 100 100 =
        .aborted frozenScenario :=
  ⟨(C4_frozen_registry_rejects_construction true frozenScenario rfl).1 13 3000 1500,
   (C4_frozen_registry_rejects_construction true frozenScenario rfl).2.1 12 11 50 5 1,
   (C4_frozen_registry_rejects_construction true frozenScenario rfl).2.2 23 1 0 "carol"
     100 100 100⟩

/-! ## C5 -/

/-- C6, the code on a registry without networks: for every draw `r` the index
is 0, the assertion `n <= length` holds as `0 <= 0`, and the call returns the
null pointer; no error is raised. -/
theorem C6_empty_registry_yields_null (internet : Internetwork) (r : ℚ)
    (hempty : internet.networks = []) :
    internetwork_getRandomNetwork internet r = .returned NULL internet := by
  simp [internetwork_getRandomNetwork, g_hash_table_get_values, hempty]

/-- C6 at the fresh registry and the draw 1/2. -/
theorem C6_empty_registry_witness :
    internetwork_getRandomNetwork internetwork_new (1 / 2) = .returned NULL internetwork_new :=
  C6_empty_registry_yields_null internetwork_new (1 / 2) rfl

/-! ## C7 -/

/-- C7: on a registry with exactly one registered network, every draw `r` of
`[0, 1)` gives the index 0 and `internetwork_getRandomNetwork` returns that
network. -/
theorem C7_single_network_is_picked (internet : Internetwork) (networkID : GQuark)
    (network : NetworkPtr) (r : ℚ) (hone : internet.networks = [(networkID, network)])
    (h0 : 0 ≤ r) (h1 : r < 1) :
    ⌊((g_hash_table_get_values internet.networks).length : ℚ) * r⌋₊ = 0 ∧
      internetwork_getRandomNetwork internet r = .returned network internet := by
  have hfloor : ⌊r⌋₊ = 0 :=
    (Nat.floor_eq_iff h0).2 ⟨by simpa using h0, by simpa using h1⟩
  simp [internetwork_getRandomNetwork, g_hash_table_get_values, hone, hfloor]

/-- C7 at the registry holding network 11 alone (the object at address 1) and
the draw 1/2. -/
theorem C7_single_network_witness :
    ⌊((g_hash_table_get_values oneNetwork.networks).length : ℚ) * (1 / 2)⌋₊ = 0 ∧
      internetwork_getRandomNetwork oneNetwork (1 / 2) = .returned 1 oneNetwork :=
  C7_single_network_is_picked oneNetwork 11 1 (1 / 2) (by decide) (by norm_num) (by norm_num)

/-! ## C8 -/

/-- C8: when the registered hosts `A` and `B` have the same network, then for
every registered host `X`, every percentile and every model of the network
pairs, latency and reliability from `A` to `X` equal those from `B` to `X`; both
are the model's value at the pair of owning networks. -/
theorem C8_latency_reliability_by_network_pair
    (linkLatency : Table NetworkPtr Network → NetworkPtr → NetworkPtr → Nat → Nat)
    (linkReliability : Table NetworkPtr Network → NetworkPtr → NetworkPtr → Nat)
    (internet : Internetwork) (A B X : GQuark) (percentile : Nat) (nodeA nodeB nodeX : Node)
    (hA : internetwork_getNode internet A = some nodeA)
    (hB : internetwork_getNode internet B = some nodeB)
    (hX : internetwork_getNode internet X = some nodeX)
    (hsame : node_getNetwork nodeA = node_getNetwork nodeB) :
    internetwork_getLatency linkLatency internet A X percentile =
        internetwork_getLatency linkLatency internet B X percentile ∧
      internetwork_getReliability linkReliability internet A X =
        internetwork_getReliability linkReliability internet B X ∧
      internetwork_getLatency linkLatency internet A X percentile =
        some (linkLatency internet.heap (node_getNetwork nodeA) (node_getNetwork nodeX)
          percentile) ∧
      internetwork_getReliability linkReliability internet A X =
        some (linkReliability internet.heap (node_getNetwork nodeA) (node_getNetwork nodeX)) := by
  simp [internetwork_getLatency, internetwork_getReliability, hA, hB, hX, hsame]

/-- C8 on the scenario with a third host: `alice` (21) and `carol` (23) are
both on `N1`, so their latency and reliability towards `bob` (22) agree. -/
theorem C8_latency_reliability_witness :
    internetwork_getLatency sampleModel threeHosts 21 22 90 =
        internetwork_getLatency sampleModel threeHosts 23 22 90 ∧
      internetwork_getReliability (fun heap a b => sampleModel heap a b 0) threeHosts 21 22 =
        internetwork_getReliability (fun heap a b => sampleModel heap a b 0) threeHosts 23 22 :=
  let h := C8_latency_reliability_by_network_pair sampleModel
    (fun heap a b => sampleModel heap a b 0) threeHosts 21 23 22 90
    (node_new 21 1 0 21 "alice" 100 100 100) (node_new 23 1 0 23 "carol" 100 100 100)
    (node_new 22 2 0 22 "bob" 100 100 100) (by decide) (by decide) (by decide) rfl
  ⟨h.1, h.2.1⟩

/-! ## C10 -/

/-- C10, counterexample: network 11 is created with bandwidths 1000/500 and
created again with 2000/1000. The second call returns; the identifier then
leads to a new object with the new bandwidths, and the object it led to before
(address 1) is gone from the heap. -/
theorem C10_duplicate_network_is_replaced :
    ∃ s1 s2, internetwork_createNetwork internetwork_new 11 1000 500 = .returned () s1 ∧
      internetwork_createNetwork s1 11 2000 1000 = .returned () s2 ∧
      s1.isReadOnly = false ∧
      internetwork_getNetwork s1 11 = 1 ∧
      internetwork_getNetwork s2 11 = 2 ∧
      g_hash_table_lookup s2.heap 1 = none ∧
      g_hash_table_lookup s2.heap 2 =
        some { id := 11, bandwidthdown := 2000, bandwidthup := 1000,
               outgoingLinks := [], incomingLinks := [] } := by
  refine ⟨_, _, rfl, rfl, ?_, ?_, ?_, ?_, ?_⟩ <;> decide

/-- C10, amended: on an unfrozen registry in which `networkID` leads to an
object allocated earlier, `createNetwork` returns normally; the identifier then
leads to the newly allocated object, which carries the new bandwidths and no
links, and the object stored before is freed. -/
theorem C10_createNetwork_replaces (internet : Internetwork) (networkID : GQuark)
    (bandwidthdown bandwidthup : Nat) (old : NetworkPtr)
    (hopen : internet.isReadOnly = false)
    (hold : g_hash_table_lookup internet.networks networkID = some old)
    (hlive : old < internet.brk) :
    ∃ s, internetwork_createNetwork internet networkID bandwidthdown bandwidthup =
        .returned () s ∧
      internetwork_getNetwork s networkID = internet.brk ∧
      internetwork_getNetwork s networkID ≠ old ∧
      g_hash_table_lookup s.heap (internetwork_getNetwork s networkID) =
        some { id := networkID, bandwidthdown := bandwidthdown, bandwidthup := bandwidthup,
               outgoingLinks := [], incomingLinks := [] } ∧
      g_hash_table_lookup s.heap old = none := by
  have hne2 : ¬ old = internet.brk := Nat.ne_of_lt hlive
  have hne : ¬ internet.brk = old := fun h => hne2 h.symm
  refine ⟨_, by simp only [internetwork_createNetwork, hopen, network_new, hold]; rfl, ?_⟩
  simp [internetwork_getNetwork, network_free, lookup_replace, lookup_erase,
    g_hash_table_lookup, hne, hne2]

/-- C10, the amended claim on the registry holding network 11 alone: creating
network 11 again puts the new object, at address 2, in the place of the one at
address 1. -/
theorem C10_createNetwork_witness :
    ∃ s, internetwork_createNetwork oneNetwork 11 2000 1000 = .returned () s ∧
      internetwork_getNetwork s 11 = oneNetwork.brk ∧
      internetwork_getNetwork s 11 ≠ 1 ∧
      g_hash_table_lookup s.heap (internetwork_getNetwork s 11) =
        some { id := 11, bandwidthdown := 2000, bandwidthup := 1000,
               outgoingLinks := [], incomingLinks := [] } ∧
      g_hash_table_lookup s.heap 1 = none :=
  C10_createNetwork_replaces oneNetwork 11 2000 1000 1 (by decide) (by decide) (by decide)

/-! ## The allocator, exactly -/

/-- The counter at loop exit and the number of turns, for every start value of
the loop: a start value that is not reserved is kept, `0xffffffff` goes over `0`
to `1` in two turns, `0` and the loopback value move on by one in one turn. -/
theorem generateIP_loop_value (le : Bool) (k c : Nat) :
    generateIP_loop le (k + 2) c =
        some (if isReservedIP le c = true then (if c = 0xffffffff then 1 else c + 1) else c) ∧
      generateIP_turns le (k + 2) c =
        (if isReservedIP le c = true then (if c = 0xffffffff then 2 else 1) else 0) := by
  by_cases h0 : isReservedIP le c = true
  · have h1f : isReservedIP le 1 = false := by
      cases le <;> decide
    rcases (isReservedIP_iff le c).1 h0 with h | h | h
    · subst h
      have h1 : isReservedIP le 0 = true := (isReservedIP_iff le 0).2 (by simp)
      have e1 : (0xffffffff + 1) % U32 = 0 := by decide
      have e2 : (0 + 1) % U32 = 1 := by decide
      cases k <;> simp [generateIP_loop, generateIP_turns, h0, h1, h1f, e1, e2]
    · subst h
      have e2 : (0 + 1) % U32 = 1 := by decide
      cases k <;> simp [generateIP_loop, generateIP_turns, h0, h1f, e2]
    · cases le
      · simp at h
        subst h
        have h2 : isReservedIP false 0x7f000002 = false := by decide
        have e2 : (0x7f000001 + 1) % U32 = 0x7f000002 := by decide
        cases k <;> simp [generateIP_loop, generateIP_turns, h0, h2, e2]
      · simp at h
        subst h
        have h2 : isReservedIP true 0x01000080 = false := by decide
        have e2 : (0x0100007f + 1) % U32 = 0x01000080 := by decide
        cases k <;> simp [generateIP_loop, generateIP_turns, h0, h2, e2]
  · have h0f : isReservedIP le c = false := by simpa using h0
    simp [generateIP_loop, generateIP_turns, h0f]

/-- The address `_internetwork_generateIP` returns, in closed form. -/
theorem generateIP_value (le : Bool) (internet : Internetwork) :
    ∃ ip, _internetwork_generateIP le internet = .returned ip { internet with ipCounter := ip } ∧
      ip = (if isReservedIP le ((internet.ipCounter + 1) % U32) = true then
              (if (internet.ipCounter + 1) % U32 = 0xffffffff then 1
               else (internet.ipCounter + 1) % U32 + 1)
            else (internet.ipCounter + 1) % U32) := by
  have hr := (generateIP_loop_value le 4294967294 ((internet.ipCounter + 1) % U32)).1
  have hr2 : generateIP_loop le U32 ((internet.ipCounter + 1) % U32) = some _ := hr
  exact ⟨_, by simp only [_internetwork_generateIP, hr2], rfl⟩

/-- From a counter value of at most `0xfffffffd` the allocator returns a greater
value. -/
theorem generateIP_increases (le : Bool) (internet : Internetwork)
    (hc : internet.ipCounter ≤ 0xfffffffd) :
    ∃ ip, _internetwork_generateIP le internet = .returned ip { internet with ipCounter := ip } ∧
      internet.ipCounter < ip := by
  obtain ⟨ip, hret, hip⟩ := generateIP_value le internet
  refine ⟨ip, hret, ?_⟩
  have hU : U32 = 4294967296 := by decide
  rw [hU] at hip
  have hm : (internet.ipCounter + 1) % 4294967296 = internet.ipCounter + 1 :=
    Nat.mod_eq_of_lt (by omega)
  rw [hm] at hip
  split at hip
  · split at hip <;> omega
  · omega

/-! ## C14 -/

/-- C14, counterexample: from the counter value `0xfffffffd` the first call
returns `0xfffffffe`; the second passes over `0xffffffff` and `0` and returns
`1`, which is smaller. -/
theorem C14_second_address_smaller_at_wrap :
    ∃ s1 s2, _internetwork_generateIP true nearWrap = .returned 0xfffffffe s1 ∧
      _internetwork_generateIP true s1 = .returned 1 s2 ∧
      ¬ (0xfffffffe < 1) := by
  refine ⟨_, _, rfl, rfl, by decide⟩

/-- C14, amended: for every starting value of the counter other than
`0xfffffffd`, two consecutive calls of `_internetwork_generateIP` both return,
and the second address is greater than the first. -/
theorem C14_second_address_greater (littleEndian : Bool) (internet : Internetwork)
    (hc : internet.ipCounter < U32) (hne : internet.ipCounter ≠ 0xfffffffd) :
    ∃ ip1 s1 ip2 s2, _internetwork_generateIP littleEndian internet = .returned ip1 s1 ∧
      _internetwork_generateIP littleEndian s1 = .returned ip2 s2 ∧ ip1 < ip2 := by
  obtain ⟨ip1, hret1, hip1⟩ := generateIP_value littleEndian internet
  have hU : U32 = 4294967296 := by decide
  have hle : ip1 ≤ 0xfffffffd := by
    by_cases h0 : isReservedIP littleEndian ((internet.ipCounter + 1) % U32) = true
    · have h0' := (isReservedIP_iff littleEndian _).1 h0
      rw [if_pos h0] at hip1
      rw [hU] at hip1 h0' hc
      cases littleEndian <;> simp only [Bool.false_eq_true, if_false, if_true] at h0' <;>
        split at hip1 <;> omega
    · have h0' : ¬ ((internet.ipCounter + 1) % U32 = 0xffffffff) := fun h =>
        h0 ((isReservedIP_iff littleEndian _).2 (Or.inl h))
      rw [if_neg h0] at hip1
      rw [hU] at hip1 h0' hc
      omega
  obtain ⟨ip2, hret2, hlt⟩ :=
    generateIP_increases littleEndian { internet with ipCounter := ip1 } hle
  exact ⟨ip1, _, ip2, _, hret1, hret2, hlt⟩

/-- C14, the amended claim at the fresh registry: the first two addresses are
`1` and `2`. -/
theorem C14_second_address_witness :
    ∃ ip1 s1 ip2 s2, _internetwork_generateIP true internetwork_new = .returned ip1 s1 ∧
      _internetwork_generateIP true s1 = .returned ip2 s2 ∧ ip1 < ip2 :=
  C14_second_address_greater true internetwork_new (by decide) (by decide)

/-! ## C19 -/

/-- C19: for every value of the counter and either byte order the call of
`_internetwork_generateIP` returns, whatever bound of at least two turns is put
on its loop; the loop makes at most two turns, so the counter is incremented at
most three times, and the address returned is the old counter plus the number
of increments, modulo `2 ^ 32`. -/
theorem C19_generateIP_terminates_within_three_increments (littleEndian : Bool)
    (internet : Internetwork) :
    ∃ ip s, _internetwork_generateIP littleEndian internet = .returned ip s ∧
      (∀ k, generateIP_loop littleEndian (k + 2) ((internet.ipCounter + 1) % U32) = some ip) ∧
      generateIP_increments littleEndian internet ≤ 3 ∧
      s.ipCounter = ip ∧
      ip = (internet.ipCounter + generateIP_increments littleEndian internet) % U32 := by
  obtain ⟨ip, hret, hip⟩ := generateIP_value littleEndian internet
  have hU : U32 = 4294967296 := by decide
  have hturns : generateIP_turns littleEndian U32 ((internet.ipCounter + 1) % U32) = _ :=
    (generateIP_loop_value littleEndian 4294967294 ((internet.ipCounter + 1) % U32)).2
  refine ⟨ip, _, hret, ?_, ?_, rfl, ?_⟩
  · intro k
    rw [hip]
    exact (generateIP_loop_value littleEndian k _).1
  · rw [generateIP_increments, hturns]
    split
    · split <;> omega
    · omega
  · rw [generateIP_increments, hturns, hip]
    by_cases h0 : isReservedIP littleEndian ((internet.ipCounter + 1) % U32) = true
    · rw [if_pos h0, if_pos h0]
      rw [hU]
      split <;> omega
    · rw [if_neg h0, if_neg h0]

/-! ## C12 -/

/-- C12: on an unfrozen registry `connectNetworks` fails at its assertion
whenever the source or the destination identifier is not in the `networks`
table; the state at the abort is the state before the call, so no network
object has a new link and the two latency bounds are as before. -/
theorem C12_connect_unknown_network_aborts (internet : Internetwork)
    (sourceID destinationID : GQuark) (latency jitter packetloss : Nat)
    (hopen : internet.isReadOnly = false)
    (hmissing : g_hash_table_lookup internet.networks sourceID = none ∨
      g_hash_table_lookup internet.networks destinationID = none) :
    internetwork_connectNetworks internet sourceID destinationID latency jitter packetloss =
      .aborted internet := by
  rcases hmissing with h | h <;>
    simp [internetwork_connectNetworks, internetwork_getNetwork, hopen, h, NULL]

/-- C12 on the scenario: network 13 does not exist, a link from 11 to 13 is
refused. -/
theorem C12_connect_unknown_witness :
    internetwork_connectNetworks scenarioState 11 13 50 5 1 = .aborted scenarioState :=
  C12_connect_unknown_network_aborts scenarioState 11 13 50 5 1 (by decide)
    (Or.inr (by decide))

/-! ## C17 -/

/-- Rounding to `gdouble` never takes a value below an integer of at most
`2 ^ 53` that it was not below before. -/
theorem toDouble_ge (n m : Nat) (hn : n ≤ 2 ^ 53) (hnm : n ≤ m) : n ≤ toDouble m := by
  unfold toDouble
  split
  · exact hnm
  · next hm =>
    have hm' : 2 ^ 53 < m := Nat.lt_of_not_le hm
    have hm0 : m ≠ 0 := by omega
    have hb : 53 ≤ Nat.log2 m := (Nat.le_log2 hm0).2 (Nat.le_of_lt hm')
    have hpow : 2 ^ Nat.log2 m ≤ m := Nat.log2_self_le hm0
    have hq : 2 ^ 52 ≤ m / 2 ^ (Nat.log2 m - 52) := by
      rw [Nat.le_div_iff_mul_le (by positivity), ← pow_add]
      have : 52 + (Nat.log2 m - 52) = Nat.log2 m := by omega
      rw [this]
      exact hpow
    have he : 2 ≤ 2 ^ (Nat.log2 m - 52) := by
      calc 2 = 2 ^ 1 := by norm_num
        _ ≤ 2 ^ (Nat.log2 m - 52) := Nat.pow_le_pow_right (by norm_num) (by omega)
    have hbase : 2 ^ 53 ≤ m / 2 ^ (Nat.log2 m - 52) * 2 ^ (Nat.log2 m - 52) := by
      calc 2 ^ 53 = 2 ^ 52 * 2 := by norm_num
        _ ≤ m / 2 ^ (Nat.log2 m - 52) * 2 ^ (Nat.log2 m - 52) := Nat.mul_le_mul hq he
    simp only []
    split
    · calc n ≤ 2 ^ 53 := hn
        _ ≤ m / 2 ^ (Nat.log2 m - 52) * 2 ^ (Nat.log2 m - 52) := hbase
        _ ≤ (m / 2 ^ (Nat.log2 m - 52) + 1) * 2 ^ (Nat.log2 m - 52) :=
            Nat.mul_le_mul_right _ (Nat.le_succ _)
    · exact le_trans hn hbase

theorem toDouble_exact (n : Nat) (hn : n ≤ 2 ^ 53) : toDouble n = n := by
  rw [toDouble, if_pos hn]

/-- C17, counterexample: on the registry with networks 11 and 12 and no link,
a link of latency `2 ^ 53` and jitter 1 is added; `jitter ≤ latency` and
`latency + jitter < 2 ^ 64` hold. The maximum read back after the call is
`2 ^ 53`, not `max(0, 2 ^ 53 + 1)`: the getter returns a `gdouble`, which
cannot hold `2 ^ 53 + 1`. -/
theorem C17_maximum_is_rounded_above_2_pow_53 :
    ∃ s, internetwork_connectNetworks twoNetworks 11 12 9007199254740992 1 1 =
        .returned () s ∧
      1 ≤ 9007199254740992 ∧ 9007199254740992 + 1 < 2 ^ 64 ∧
      internetwork_getMaximumGlobalLatency twoNetworks = 0 ∧
      internetwork_getMaximumGlobalLatency s = 9007199254740992 ∧
      internetwork_getMaximumGlobalLatency s ≠
        max (internetwork_getMaximumGlobalLatency twoNetworks) (9007199254740992 + 1) := by
  have hsome : ∃ s, internetwork_connectNetworks twoNetworks 11 12 9007199254740992 1 1 =
      .returned () s := ⟨_, rfl⟩
  obtain ⟨s, hs⟩ := hsome
  obtain ⟨_, _, _, _, _, hmax, _⟩ :=
    connectNetworks_frame twoNetworks s 11 12 9007199254740992 1 1 () hs
  have h0 : twoNetworks.maximumGlobalLatency = 0 := by decide
  have hfield : s.maximumGlobalLatency = 9007199254740993 := by
    rw [hmax, h0]
    decide
  have hlog : Nat.log2 9007199254740993 = 53 := by
    rw [Nat.log2_eq_log_two, Nat.log_eq_iff (by norm_num)]
    norm_num
  have hround : toDouble 9007199254740993 = 9007199254740992 := by
    simp [toDouble, hlog]
  have hget0 : internetwork_getMaximumGlobalLatency twoNetworks = 0 := by decide
  have hget : internetwork_getMaximumGlobalLatency s = 9007199254740992 := by
    rw [internetwork_getMaximumGlobalLatency, hfield, hround]
  refine ⟨s, hs, by norm_num, by norm_num, hget0, hget, ?_⟩
  rw [hget, hget0]
  norm_num

/-- C17, amended: when a `connectNetworks` call returns, with `jitter ≤ latency`
and `latency + jitter ≤ 2 ^ 53`, the maximum read back after the call is the
greater of the maximum read back before and `latency + jitter`, and the minimum
read back is the smaller of the minimum read back before and
`latency - jitter`. -/
theorem C17_connect_updates_bounds (internet s : Internetwork)
    (sourceID destinationID : GQuark) (latency jitter packetloss : Nat)
    (hret : internetwork_connectNetworks internet sourceID destinationID latency jitter
      packetloss = .returned () s)
    (hjitter : jitter ≤ latency) (hsum : latency + jitter ≤ 2 ^ 53) :
    internetwork_getMaximumGlobalLatency s =
        max (internetwork_getMaximumGlobalLatency internet) (latency + jitter) ∧
      internetwork_getMinimumGlobalLatency s =
        min (internetwork_getMinimumGlobalLatency internet) (latency - jitter) := by
  obtain ⟨_, _, _, _, _, hmax, hmin, _⟩ :=
    connectNetworks_frame internet s sourceID destinationID latency jitter packetloss () hret
  have hU : U64 = 18446744073709551616 := by decide
  have hadd : add64 latency jitter = latency + jitter := by
    rw [add64, hU]
    omega
  have hsub : sub64 latency jitter = latency - jitter := by
    rw [sub64, hU]
    omega
  have hdiff : latency - jitter ≤ 2 ^ 53 := by omega
  simp only [internetwork_getMaximumGlobalLatency, internetwork_getMinimumGlobalLatency]
  rw [hmax, hmin, hadd, hsub, MAX, MIN]
  constructor
  · split
    · next hgt =>
      have := toDouble_ge (latency + jitter) internet.maximumGlobalLatency hsum (by omega)
      omega
    · next hle =>
      have hex := toDouble_exact internet.maximumGlobalLatency (by omega)
      rw [toDouble_exact _ hsum, hex]
      omega
  · split
    · next hlt =>
      have hex := toDouble_exact internet.minimumGlobalLatency (by omega)
      rw [hex]
      omega
    · next hge =>
      have := toDouble_ge (latency - jitter) internet.minimumGlobalLatency hdiff (by omega)
      rw [toDouble_exact _ hdiff]
      omega

/-- C17, the amended claim on the scenario: a second link, from `N2` to `N1`,
of latency 80 and jitter 20 lifts the maximum from 55 to 100 and leaves the
minimum at 0. -/
theorem C17_connect_witness :
    ∃ s, internetwork_connectNetworks scenarioState 12 11 80 20 1 = .returned () s ∧
      internetwork_getMaximumGlobalLatency s = 100 ∧
      internetwork_getMinimumGlobalLatency s = 0 := by
  have hsome : ∃ s, internetwork_connectNetworks scenarioState 12 11 80 20 1 =
      .returned () s := ⟨_, rfl⟩
  obtain ⟨s, hs⟩ := hsome
  have h := C17_connect_updates_bounds scenarioState s 12 11 80 20 1 hs (by decide)
    (by norm_num)
  have e1 : internetwork_getMaximumGlobalLatency scenarioState = 55 := by decide
  have e2 : internetwork_getMinimumGlobalLatency scenarioState = 0 := by decide
  rw [e1, e2] at h
  exact ⟨s, hs, by simpa using h.1, by simpa using h.2⟩

/-! ## C20 -/

/-- The minimum bound stays 0 over a run that starts with it at 0. -/
theorem minimum_stays_zero (le : Bool) (cs : List Call) :
    ∀ s0 s : Internetwork, runCalls le s0 cs = some s → s0.minimumGlobalLatency = 0 →
      s.minimumGlobalLatency = 0 := by
  induction cs with
  | nil =>
    intro s0 s h h0
    simp only [runCalls, Option.some.injEq] at h
    subst h
    exact h0
  | cons c cs ih =>
    intro s0 s h h0
    obtain ⟨s1, he, hr⟩ := (runCalls_cons le s0 s c cs).1 h
    refine ih s1 s hr ?_
    cases c with
    | createNetwork id bd bu =>
      obtain ⟨_, _, _, _, _, hmin, _⟩ := createNetwork_frame s0 s1 id bd bu () he
      rw [hmin, h0]
    | connectNetworks a b l j p =>
      obtain ⟨_, _, _, _, _, _, hmin, _⟩ := connectNetworks_frame s0 s1 a b l j p () he
      rw [hmin, h0, MIN]
      split <;> omega
    | createNode nodeID network software hostname bd bu cpu =>
      obtain ⟨_, _, _, _, _, _, _, hmin, _⟩ :=
        createNode_frame le s0 s1 nodeID network software hostname bd bu cpu () he
      rw [hmin, h0]

/-- C20: in every state reached from a fresh registry by a run of construction
calls, whatever the latency and jitter of the links added,
`internetwork_getMinimumGlobalLatency` returns 0. -/
theorem C20_minimum_latency_is_zero (littleEndian : Bool) (cs : List Call) (s : Internetwork)
    (hrun : runCalls littleEndian internetwork_new cs = some s) :
    internetwork_getMinimumGlobalLatency s = 0 := by
  rw [internetwork_getMinimumGlobalLatency,
    minimum_stays_zero littleEndian cs internetwork_new s hrun rfl]
  decide

/-- C20 on the scenario: its one link has latency 50 and jitter 5, and the
minimum read back is 0, not 45. -/
theorem C20_minimum_latency_witness :
    linkFigures scenario = [(50, 5)] ∧ internetwork_getMinimumGlobalLatency scenarioState = 0 :=
  ⟨by decide, C20_minimum_latency_is_zero true scenario scenarioState scenario_runs⟩

/-! ## C18 -/

/-- C18: when a `createNode` call returns, the host record, `networksByIP`,
`ipByName` and `nameByIp` all carry the address `(guint32) nodeID`; the same
call made with any other value of the address counter writes the same four
tables; and the counter is left at the value the allocator returned, which
differs from the value before the call. -/
theorem C18_address_is_identifier (littleEndian : Bool) (internet s : Internetwork)
    (nodeID : GQuark) (network : NetworkPtr) (software : Nat) (hostname : String)
    (bwDown bwUp cpuBps : Nat)
    (hret : internetwork_createNode littleEndian internet nodeID network software hostname
      bwDown bwUp cpuBps = .returned () s) :
    g_hash_table_lookup s.nodes (nodeID % U32) =
        some (node_new nodeID network software (nodeID % U32) hostname bwDown bwUp cpuBps) ∧
      g_hash_table_lookup s.networksByIP (nodeID % U32) = some network ∧
      g_hash_table_lookup s.ipByName hostname = some (nodeID % U32) ∧
      g_hash_table_lookup s.nameByIp (nodeID % U32) = some hostname ∧
      (∀ counter, ∃ s2,
        internetwork_createNode littleEndian { internet with ipCounter := counter } nodeID
          network software hostname bwDown bwUp cpuBps = .returned () s2 ∧
        s2.nodes = s.nodes ∧ s2.networksByIP = s.networksByIP ∧
        s2.ipByName = s.ipByName ∧ s2.nameByIp = s.nameByIp) ∧
      (∃ ip, _internetwork_generateIP littleEndian internet =
          .returned ip { internet with ipCounter := ip } ∧
        s.ipCounter = ip ∧ ip ≠ internet.ipCounter) := by
  have hs : internet.isReadOnly = false := by
    cases h : internet.isReadOnly
    · rfl
    · simp [internetwork_createNode, h] at hret
  obtain ⟨ip, hgen, hne⟩ := generateIP_advances littleEndian internet
  obtain ⟨h1, h2, h3, h4, _⟩ :=
    createNode_frame littleEndian internet s nodeID network software hostname
      bwDown bwUp cpuBps () hret
  refine ⟨by rw [h1, lookup_replace, if_pos rfl], by rw [h2, lookup_replace, if_pos rfl],
    by rw [h3, lookup_replace, if_pos rfl], by rw [h4, lookup_replace, if_pos rfl], ?_, ?_⟩
  · intro counter
    obtain ⟨c, _, _, _, hret2⟩ :=
      createNode_returns littleEndian { internet with ipCounter := counter } hs nodeID
        network software hostname bwDown bwUp cpuBps
    exact ⟨_, hret2, by rw [h1], by rw [h2], by rw [h3], by rw [h4]⟩
  · refine ⟨ip, hgen, ?_, hne⟩
    simp only [internetwork_createNode, hs, hgen, Bool.false_eq_true, if_false] at hret
    injection hret with _ hret
    rw [← hret]

/-- C18 on the scenario: host 23 created with the counter at 2 gets the
address 23. -/
theorem C18_address_witness :
    ∃ s, internetwork_createNode true scenarioState 23 1 0 "carol" 100 100 100 =
        .returned () s ∧
      g_hash_table_lookup s.networksByIP 23 = some 1 ∧
      g_hash_table_lookup s.ipByName "carol" = some 23 ∧
      g_hash_table_lookup s.nameByIp 23 = some "carol" ∧
      scenarioState.ipCounter = 2 ∧ s.ipCounter = 3 := by
  have hsome : ∃ s, internetwork_createNode true scenarioState 23 1 0 "carol" 100 100 100 =
      .returned () s := ⟨_, rfl⟩
  obtain ⟨s, hs⟩ := hsome
  have h := C18_address_is_identifier true scenarioState s 23 1 0 "carol" 100 100 100 hs
  have e : 23 % U32 = 23 := by decide
  rw [e] at h
  obtain ⟨_, h2, h3, h4, _, ip, hgen, hip, _⟩ := h
  have hgen2 : _internetwork_generateIP true scenarioState =
      .returned 3 { scenarioState with ipCounter := 3 } := by decide
  rw [hgen2] at hgen
  injection hgen with hgen _
  exact ⟨s, hs, h2, h3, h4, by decide, by rw [hip, ← hgen]⟩

/-! ## C11 -/

/-- C11, counterexample: host 21 exists under the hostname `alice` on an
unfrozen registry; `createNode` for identifier 21 and hostname `bob` returns,
and afterwards both the host record of 21 and the name of address 21 are those
of `bob`. The call reads no freed key, and neither does the lookup of 21. -/
theorem C11_duplicate_host_is_replaced :
    ∃ s, hostAlice.isReadOnly = false ∧ s.keys.freedKeyRead = false ∧
      internetwork_resolveIP_freedKey s 21 = false ∧
      (internetwork_getNode hostAlice 21).map Node.hostname = some "alice" ∧
      internetwork_resolveIP hostAlice 21 = some "alice" ∧
      internetwork_createNode true hostAlice 21 1 0 "bob" 200 200 200 = .returned () s ∧
      (internetwork_getNode s 21).map Node.hostname = some "bob" ∧
      internetwork_resolveIP s 21 = some "bob" := by
  refine ⟨_, ?_, ?_, ?_, ?_, ?_, rfl, ?_, ?_⟩ <;> decide

/-! ## C13 -/

/-- C13, the code at the failing input: on the registry holding network 11, a
host with identifier `0xffffffff` is created. The call returns, and the address
of the host, the key of its entries in `networksByIP` and `nameByIp`, is
`0xffffffff`, the broadcast value `htonl(INADDR_BROADCAST)`. -/
theorem C13_host_gets_broadcast_address :
    ∃ s, internetwork_createNode true oneNetwork 0xffffffff 1 0 "eve" 100 100 100 =
        .returned () s ∧
      (internetwork_getNode s 0xffffffff).map Node.ip = some 0xffffffff ∧
      internetwork_lookupNetwork s 0xffffffff = 1 ∧
      internetwork_resolveIP s 0xffffffff = some "eve" ∧
      htonl true INADDR_BROADCAST = 0xffffffff ∧
      isReservedIP true 0xffffffff = true := by
  refine ⟨_, rfl, ?_, ?_, ?_, ?_, ?_⟩ <;> decide

/-! ## C15 -/

theorem quark_try_eq_zero_iff (quarks : QuarkTable) (name : String) :
    g_quark_try_string quarks name = 0 ↔ name ∉ quarks := by
  unfold g_quark_try_string
  split <;> simp [*]

theorem quark_from_then_try (quarks : QuarkTable) (name : String) :
    g_quark_try_string (g_quark_from_string quarks name).2 name =
        (g_quark_from_string quarks name).1 ∧
      (g_quark_from_string quarks name).1 ≠ 0 := by
  unfold g_quark_from_string
  split
  · next h => simp [g_quark_try_string, h]
  · next h =>
    have hidx : List.indexOf name (quarks ++ [name]) = quarks.length := by
      rw [List.indexOf_append_of_not_mem h]
      simp
    simp [g_quark_try_string, hidx]

theorem quark_from_mem (quarks : QuarkTable) (name : String) :
    name ∈ (g_quark_from_string quarks name).2 := by
  unfold g_quark_from_string
  split
  · next h => exact h
  · simp

theorem quark_kept (quarks : QuarkTable) (name other : String) (h : name ∈ quarks) :
    g_quark_try_string (g_quark_from_string quarks other).2 name =
      g_quark_try_string quarks name := by
  unfold g_quark_from_string
  split
  · rfl
  · simp [g_quark_try_string, h, List.indexOf_append_of_mem h]

/-- C15, counterexample: in the scenario built with the quarks of its names the
only hostnames are `alice` and `bob`. For `N1`, a name interned as a network
identifier only, the lookup returns the quark 1; for `ghost`, a name never
interned, it returns 0. -/
theorem C15_resolveName_yields_values :
    runCalls true internetwork_new quarkScenario = some quarkScenarioState ∧
      (quarkScenario.filterMap Call.node?).map Node.hostname = ["alice", "bob"] ∧
      internetwork_resolveName internedNames quarkScenarioState "N1" = 1 ∧
      internetwork_resolveName internedNames quarkScenarioState "ghost" = 0 := by
  decide

/-- C15, amended: for every table of interned strings, every registry state and
every name, `internetwork_resolveName` returns 0 exactly when the name was never
interned, returns the same value on every registry, and returns the quark of
the name, which is not 0, once the name has been interned for whatever
purpose, also after other strings have been interned since. -/
theorem C15_resolveName_is_quark (quarks : QuarkTable) (internet internet2 : Internetwork)
    (name : String) :
    (internetwork_resolveName quarks internet name = 0 ↔ name ∉ quarks) ∧
      internetwork_resolveName quarks internet name =
        internetwork_resolveName quarks internet2 name ∧
      internetwork_resolveName (g_quark_from_string quarks name).2 internet name =
        (g_quark_from_string quarks name).1 ∧
      (g_quark_from_string quarks name).1 ≠ 0 ∧
      (∀ other, internetwork_resolveName
          (g_quark_from_string (g_quark_from_string quarks name).2 other).2 internet name =
        (g_quark_from_string quarks name).1) :=
  ⟨quark_try_eq_zero_iff quarks name, rfl, (quark_from_then_try quarks name).1,
    (quark_from_then_try quarks name).2, fun other => by
      rw [internetwork_resolveName, quark_kept _ name other (quark_from_mem quarks name)]
      exact (quark_from_then_try quarks name).1⟩

/-! ## The allocations behind the index tables -/

theorem exec_keys (le : Bool) (s s1 : Internetwork) (c : Call) (u : Unit)
    (h : Call.exec le s c = .returned u s1) :
    (c.node? = none ∧ s1.keys = s.keys) ∨
      (∃ n, c.node? = some n ∧ s1.keys = KeyMemory.replaceEntries s.keys n.ip n.hostname) := by
  cases c with
  | createNetwork id bd bu =>
    obtain ⟨_, _, _, _, _, _, _, _, hk⟩ := createNetwork_frame s s1 id bd bu u h
    exact Or.inl ⟨rfl, hk⟩
  | connectNetworks a b l j p =>
    obtain ⟨_, _, _, _, _, _, _, _, _, hk⟩ := connectNetworks_frame s s1 a b l j p u h
    exact Or.inl ⟨rfl, hk⟩
  | createNode nodeID network software hostname bd bu cpu =>
    obtain ⟨_, _, _, _, _, _, _, _, _, hk⟩ :=
      createNode_frame le s s1 nodeID network software hostname bd bu cpu u h
    exact Or.inr ⟨_, rfl, hk⟩

theorem keyFreed_nil {κ : Type} [DecidableEq κ] (keys : Table κ Nat) (key : κ) :
    keyFreed keys [] key = false := by
  unfold keyFreed
  split <;> simp

/-- A run whose hosts have pairwise different addresses and pairwise different
hostnames, none of them in the tables at the start, frees nothing and reads no
freed key, when nothing was freed before. -/
theorem run_frees_nothing (le : Bool) (cs : List Call) :
    ∀ s0 s : Internetwork, runCalls le s0 cs = some s →
      s0.keys.freedIP = [] → s0.keys.freedName = [] → s0.keys.freedKeyRead = false →
      (∀ n ∈ createdHosts cs,
        g_hash_table_lookup s0.keys.ipByNameKey n.hostname = none ∧
        g_hash_table_lookup s0.keys.nameByIpKey n.ip = none) →
      (createdHosts cs).Pairwise (fun a b => a.ip ≠ b.ip ∧ a.hostname ≠ b.hostname) →
      s.keys.freedIP = [] ∧ s.keys.freedName = [] ∧ s.keys.freedKeyRead = false := by
  induction cs with
  | nil =>
    intro s0 s h h1 h2 h3 _ _
    simp only [runCalls, Option.some.injEq] at h
    subst h
    exact ⟨h1, h2, h3⟩
  | cons c cs ih =>
    intro s0 s h h1 h2 h3 hnew hpair
    obtain ⟨s1, he, hr⟩ := (runCalls_cons le s0 s c cs).1 h
    rcases exec_keys le s0 s1 c () he with ⟨hnone, hk⟩ | ⟨n, hcn, hk⟩
    · have hhosts : createdHosts (c :: cs) = createdHosts cs := by
        simp [createdHosts, List.filterMap_cons, hnone]
      rw [hhosts] at hnew hpair
      exact ih s1 s hr (by rw [hk]; exact h1) (by rw [hk]; exact h2) (by rw [hk]; exact h3)
        (by rw [hk]; exact hnew) hpair
    · have hhosts : createdHosts (c :: cs) = n :: createdHosts cs := by
        simp [createdHosts, List.filterMap_cons, hcn]
      rw [hhosts] at hnew hpair
      obtain ⟨hn1, hn2⟩ := hnew n (List.mem_cons_self _ _)
      obtain ⟨hpn, hptail⟩ := List.pairwise_cons.1 hpair
      refine ih s1 s hr ?_ ?_ ?_ ?_ hptail
      · rw [hk]
        simp [KeyMemory.replaceEntries, freeDisplaced, hn1, h1]
      · rw [hk]
        simp [KeyMemory.replaceEntries, freeDisplaced, hn2, h2]
      · rw [hk]
        simp [KeyMemory.replaceEntries, KeyMemory.readsFreedKey, freeDisplaced, hn1, h1, h2, h3,
          keyFreed_nil]
      · intro m hm
        obtain ⟨hm1, hm2⟩ := hnew m (List.mem_cons_of_mem _ hm)
        obtain ⟨hip, hname⟩ := hpn m hm
        rw [hk]
        simp [KeyMemory.replaceEntries, lookup_replace, hip, hname, hm1, hm2]

theorem mem_createdHosts (cs : List Call) (n : Node) :
    n ∈ createdHosts cs ↔ ∃ c ∈ cs, c.node? = some n := by
  simp [createdHosts, List.mem_filterMap]

/-! ## C2, amended -/

/-- C2, amended: after any successful run of construction calls on a fresh
registry in which every `createNode` call passes the quark of its hostname as
identifier and no identifier is passed twice, no freed key was read during the
run, no lookup in `nameByIp` meets a freed key, and both round trips hold for
every host `n` created: `resolveIP (resolveName n.hostname) = n.hostname` and
`resolveName (resolveIP n.ip) = n.ip`. -/
theorem C2_roundtrip_when_id_is_quark (littleEndian : Bool) (quarks : QuarkTable)
    (cs : List Call) (s : Internetwork)
    (hrun : runCalls littleEndian internetwork_new cs = some s)
    (hquark : ∀ n ∈ createdHosts cs,
      g_quark_try_string quarks n.hostname = n.id ∧ n.id < U32)
    (hdistinct : ((createdHosts cs).map Node.id).Nodup)
    (n : Node) (hn : n ∈ createdHosts cs) :
    s.keys.freedKeyRead = false ∧
      (∀ ip, internetwork_resolveIP_freedKey s ip = false) ∧
      internetwork_resolveIP s (internetwork_resolveName quarks s n.hostname) =
        some n.hostname ∧
      (internetwork_resolveIP s n.ip).map (internetwork_resolveName quarks s) = some n.ip := by
  have hipid : ∀ m ∈ createdHosts cs, m.ip = m.id := by
    intro m hm
    obtain ⟨c, _, hc⟩ := (mem_createdHosts cs m).1 hm
    rw [node?_ip c m hc, Nat.mod_eq_of_lt (hquark m hm).2]
  have hpair : (createdHosts cs).Pairwise (fun a b => a.ip ≠ b.ip ∧ a.hostname ≠ b.hostname) := by
    have hp : (createdHosts cs).Pairwise (fun a b => a.id ≠ b.id) := List.pairwise_map.1 hdistinct
    refine hp.imp_of_mem ?_
    intro a b ha hb hab
    constructor
    · rw [hipid a ha, hipid b hb]
      exact hab
    · intro hname
      apply hab
      rw [← (hquark a ha).1, ← (hquark b hb).1, hname]
  obtain ⟨hfreedIP, _, hread⟩ := run_frees_nothing littleEndian cs internetwork_new s hrun
    rfl rfl rfl (fun _ _ => ⟨rfl, rfl⟩) hpair
  obtain ⟨hq, _⟩ := hquark n hn
  have hip := hipid n hn
  obtain ⟨c, hc, hcn⟩ := (mem_createdHosts cs n).1 hn
  have hname : g_hash_table_lookup s.nameByIp n.id = some n.hostname := by
    rcases nameByIp_after_run littleEndian cs internetwork_new s hrun n.id with
      ⟨_, hno⟩ | ⟨c2, hc2, n2, hn2, hip2, hl⟩
    · exact absurd hip (hno c hc n hcn)
    · have hn2mem : n2 ∈ createdHosts cs := (mem_createdHosts cs n2).2 ⟨c2, hc2, hn2⟩
      have hid : n2.id = n.id := by
        rw [← hipid n2 hn2mem, hip2]
      have heq : n2 = n := List.inj_on_of_nodup_map hdistinct hn2mem hn hid
      rw [hl, heq]
  refine ⟨hread, ?_, ?_, ?_⟩
  · intro ip
    rw [internetwork_resolveIP_freedKey, hfreedIP]
    exact keyFreed_nil _ _
  · simp only [internetwork_resolveName, internetwork_resolveIP, hq, hname]
  · simp only [internetwork_resolveName, internetwork_resolveIP, hip, hname, Option.map_some',
      hq]

theorem quarkScenario_runs :
    runCalls true internetwork_new quarkScenario = some quarkScenarioState := by
  decide

/-- C2, the amended claim at the scenario built with the quarks of its names:
`alice`, host 3, passes both round trips. -/
theorem C2_roundtrip_witness :
    quarkScenarioState.keys.freedKeyRead = false ∧
      (∀ ip, internetwork_resolveIP_freedKey quarkScenarioState ip = false) ∧
      internetwork_resolveIP quarkScenarioState
        (internetwork_resolveName internedNames quarkScenarioState "alice") = some "alice" ∧
      (internetwork_resolveIP quarkScenarioState 3).map
        (internetwork_resolveName internedNames quarkScenarioState) = some 3 := by
  have e : 3 % U32 = 3 := by decide
  have h := C2_roundtrip_when_id_is_quark true internedNames quarkScenario quarkScenarioState
    quarkScenario_runs (by decide) (by decide)
    (node_new 3 1 0 (3 % U32) "alice" 100 100 100) (by decide)
  simp only [node_new, e] at h
  exact h

/-! ## C9 -/

/-- C9, the code at the failing input: the hostname `alice` is given to host 21
and then to host 22, both on the network at address 1. The run succeeds and
reads no freed key. Host 21 is still in the node table, with that network; but
the second call has freed the `mapIP` of the first, the value `ipByName` held
for `alice`, and that allocation is still the key of the entry of 21 in
`networksByIP`: `internetwork_lookupNetwork` at 21 compares against freed
memory. -/
theorem C9_lookup_of_first_host_reads_freed_key :
    ∃ s, runCalls true internetwork_new twoAlices = some s ∧
      s.keys.freedKeyRead = false ∧
      (internetwork_getNode s 21).map node_getNetwork = some 1 ∧
      (internetwork_getNode s 21).map Node.ip = some 21 ∧
      g_hash_table_lookup s.keys.networksByIPKey 21 = some 0 ∧
      s.keys.freedIP = [0] ∧
      internetwork_lookupNetwork_freedKey s 21 = true := by
  refine ⟨_, rfl, ?_, ?_, ?_, ?_, ?_, ?_⟩ <;> decide

/-! ## C11, amended -/

/-- C11, amended: on an unfrozen registry in which a host with identifier
`nodeID` is present, `createNode` for that identifier makes no duplicate check.
When no freed key was read before and none of the three table replacements of
the call meets one, the call returns without having read a freed key; the host
map then holds the new record under the identifier (so the entry has changed
whenever the new record differs from the old one), and `networksByIP`,
`nameByIp` and `ipByName` hold the entries of the new host. -/
theorem C11_createNode_replaces_host (littleEndian : Bool) (internet : Internetwork)
    (nodeID : GQuark) (network : NetworkPtr) (software : Nat) (hostname : String)
    (bwDown bwUp cpuBps : Nat) (old : Node)
    (hopen : internet.isReadOnly = false)
    (hpresent : internetwork_getNode internet nodeID = some old)
    (hclean : internet.keys.freedKeyRead = false)
    (hkeys : KeyMemory.readsFreedKey internet.keys (nodeID % U32) hostname = false) :
    ∃ s, internetwork_createNode littleEndian internet nodeID network software hostname
        bwDown bwUp cpuBps = .returned () s ∧
      s.keys.freedKeyRead = false ∧
      internetwork_getNode s nodeID =
        some (node_new nodeID network software (nodeID % U32) hostname bwDown bwUp cpuBps) ∧
      (node_new nodeID network software (nodeID % U32) hostname bwDown bwUp cpuBps ≠ old →
        internetwork_getNode s nodeID ≠ internetwork_getNode internet nodeID) ∧
      internetwork_lookupNetwork s (nodeID % U32) = network ∧
      internetwork_resolveIP s (nodeID % U32) = some hostname ∧
      g_hash_table_lookup s.ipByName hostname = some (nodeID % U32) := by
  obtain ⟨c, _, _, _, hret⟩ :=
    createNode_returns littleEndian internet hopen nodeID network software hostname
      bwDown bwUp cpuBps
  refine ⟨_, hret, by simp [KeyMemory.replaceEntries, hclean, hkeys],
    by simp [internetwork_getNode, lookup_replace], ?_,
    by simp [internetwork_lookupNetwork, lookup_replace],
    by simp [internetwork_resolveIP, lookup_replace], by simp [lookup_replace]⟩
  intro hne
  rw [hpresent]
  simpa [internetwork_getNode, lookup_replace] using hne

/-- The case the hypothesis on the key memory excludes: host 21 exists as
`alice` and is created again as `alice`. The replacement in `ipByName` frees
the `mapIP` of the first call, and the replacement in `nameByIp` then compares
against it. -/
theorem createNode_same_host_reads_freed_key :
    KeyMemory.readsFreedKey hostAlice.keys 21 "alice" = true ∧
      ∃ s, internetwork_createNode true hostAlice 21 1 0 "alice" 100 100 100 =
          .returned () s ∧ s.keys.freedKeyRead = true := by
  refine ⟨by decide, _, rfl, by decide⟩

/-- C11, the amended claim on the registry that holds host 21 as `alice`:
creating host 21 again as `bob` meets no freed key and puts the record of `bob`
in its place. -/
theorem C11_createNode_witness :
    ∃ s, internetwork_createNode true hostAlice 21 1 0 "bob" 200 200 200 = .returned () s ∧
      s.keys.freedKeyRead = false ∧
      internetwork_getNode s 21 = some (node_new 21 1 0 (21 % U32) "bob" 200 200 200) ∧
      (node_new 21 1 0 (21 % U32) "bob" 200 200 200 ≠ node_new 21 1 0 21 "alice" 100 100 100 →
        internetwork_getNode s 21 ≠ internetwork_getNode hostAlice 21) ∧
      internetwork_lookupNetwork s (21 % U32) = 1 ∧
      internetwork_resolveIP s (21 % U32) = some "bob" ∧
      g_hash_table_lookup s.ipByName "bob" = some (21 % U32) :=
  C11_createNode_replaces_host true hostAlice 21 1 0 "bob" 200 200 200
    (node_new 21 1 0 21 "alice" 100 100 100) (by decide) (by decide) (by decide) (by decide)

/-! ## C16 -/

/-- C16, the code at the failing input: host 21 is created under the hostname
`alice` and created again under the hostname `bob`. The run succeeds and reads
no freed key. `nameByIp` then maps 21 to `bob`; `ipByName` still has the entry
of `alice`, stored with the address 21, but `nameByIp` has freed the `mapName`
of the first call, the value it held for 21, and that allocation is the key of
the entry of `alice`: a lookup of `alice` in `ipByName` compares against freed
memory. -/
theorem C16_stale_entry_has_freed_key :
    ∃ s, runCalls true internetwork_new renamedHost = some s ∧
      s.keys.freedKeyRead = false ∧
      g_hash_table_lookup s.nameByIp 21 = some "bob" ∧
      g_hash_table_lookup s.ipByName "alice" = some 21 ∧
      g_hash_table_lookup s.keys.ipByNameKey "alice" = some 0 ∧
      s.keys.freedName = [0] ∧
      ipByName_freedKey s "alice" = true := by
  refine ⟨_, rfl, ?_, ?_, ?_, ?_, ?_, ?_⟩ <;> decide

end Shadow
